import Mathlib

/-
Verification of the simulation core of the Rally Castrol Legends repository.

The embedding below translates, function by function, the vehicle-dynamics
stages of src/components/GameEngine.tsx, the grid-city generator of the
urban world module, the touge (descending pass) generator, and the windowed
off-road scan.  JavaScript numbers are modelled as exact rationals (or reals
where the source applies Math.sqrt / Math.sin / Math.pow with a fractional
exponent); an absent optional field of a tuning record is modelled as none,
and NaN-producing arithmetic on absent fields is modelled by propagating
none.  Each claim of the specification is stated and settled against these
definitions.
-/

set_option maxHeartbeats 1000000

/-- JS `x || d` for an optional numeric field of the tuning record:
undefined (modelled as none) and 0 are falsy, so both fall back to `d`.
Used by the per-tick parameter resolution of GameEngine.tsx. -/
def jsOr (x : Option ℚ) (d : ℚ) : ℚ :=
  match x with
  | none => d
  | some v => if v = 0 then d else v

/-- JS `a || b` where both sides may be absent/NaN (modelled as none)
or zero; the result may itself be none (NaN). -/
def jsOrOpt (a b : Option ℚ) : Option ℚ :=
  match a with
  | none => b
  | some v => if v = 0 then b else some v

/-- JS multiplication with NaN propagation: `undefined * x` is NaN. -/
def jsMulOpt (a b : Option ℚ) : Option ℚ :=
  match a, b with
  | some x, some y => some (x * y)
  | _, _ => none

/-- JS `Math.abs` on a possibly-NaN number (Math.abs(NaN) is NaN). -/
def jsAbsOpt (a : Option ℚ) : Option ℚ :=
  match a with
  | some x => some |x|
  | none => none

/-- JS `a > 0` on a possibly-NaN number: every comparison with NaN is false. -/
def jsGtZero (a : Option ℚ) : Bool :=
  match a with
  | some x => if 0 < x then true else false
  | none => false

/-
Claim C1 - the weight-transfer stage of the per-tick physics update,
GameEngine.tsx lines 1663-1687.  The stage resets both fractions to the
static distribution and then, under throttle (up and not down) or brake
(down), shifts weight with the clamps written in the source.  The speed
read just before the stage is not consumed by it and is omitted.
-/

/-- Weight-transfer stage of the physics loop (GameEngine.tsx 1663-1687).
Arguments are the resolved tuning parameters consumed by the stage and the
two pedal inputs; the result is the pair (frontWeight, rearWeight). -/
def weightTransferStage (weightDistribution weightTransferAccel weightTransferBrake
    acceleration brakeForce mass : ℚ) (up down : Bool) : ℚ × ℚ :=
  let base : ℚ × ℚ := (weightDistribution, 1 - weightDistribution)
  let afterAccel : ℚ × ℚ :=
    if up && !down then
      let accelForce := acceleration * 400 / mass
      let transfer := weightTransferAccel * (accelForce / 9.81) * 0.01
      let fw := max 0.2 (weightDistribution - transfer)
      (fw, min 0.8 (1 - fw))
    else base
  if down then
    let scaledBrakeForce := brakeForce * 150 / mass
    let transfer := weightTransferBrake * (scaledBrakeForce / 9.81) * 0.01
    let fw := min 0.8 (weightDistribution + transfer)
    (fw, max 0.2 (1 - fw))
  else afterAccel

/-- Claim C1, counterexample: a tuning record with weightDistribution 0.1 -
inside the documented range [0,1] and preserved by the `|| 0.5` resolution -
and neither pedal pressed leaves the front fraction at 0.1 after the
weight-transfer stage, outside [0.2, 0.8]; the two fractions still sum to 1. -/
theorem c1_counterexample :
    (0 ≤ (1/10 : ℚ) ∧ (1/10 : ℚ) ≤ 1) ∧
    jsOr (some (1/10)) 0.5 = 1/10 ∧
    (weightTransferStage (1/10) (2/5) (1/2) (3/10) (6/5) 1100 false false).1 = 1/10 ∧
    ¬((0.2:ℚ) ≤ (weightTransferStage (1/10) (2/5) (1/2) (3/10) (6/5) 1100 false false).1) ∧
    (weightTransferStage (1/10) (2/5) (1/2) (3/10) (6/5) 1100 false false).1 +
      (weightTransferStage (1/10) (2/5) (1/2) (3/10) (6/5) 1100 false false).2 = 1 := by
  norm_num [weightTransferStage, jsOr]

/-- The clamp pattern of the throttle branch of the weight-transfer stage:
front = max 0.2 (wd - t), rear = min 0.8 (1 - front). -/
theorem wtPairUp (wd t : ℚ) (h1 : (0.2:ℚ) ≤ wd) (h2 : wd ≤ 0.8) (ht : 0 ≤ t) :
    max 0.2 (wd - t) + min 0.8 (1 - max 0.2 (wd - t)) = 1 ∧
    (0.2:ℚ) ≤ max 0.2 (wd - t) ∧ max (0.2:ℚ) (wd - t) ≤ 0.8 ∧
    (0.2:ℚ) ≤ min 0.8 (1 - max 0.2 (wd - t)) ∧
    min (0.8:ℚ) (1 - max 0.2 (wd - t)) ≤ 0.8 := by
  have hfw1 : (0.2:ℚ) ≤ max 0.2 (wd - t) := le_max_left _ _
  have hfw2 : max (0.2:ℚ) (wd - t) ≤ 0.8 := max_le (by norm_num) (by linarith)
  have hmin : min (0.8:ℚ) (1 - max 0.2 (wd - t)) = 1 - max 0.2 (wd - t) :=
    min_eq_right (by linarith)
  rw [hmin]
  exact ⟨by ring, hfw1, hfw2, by linarith, by linarith⟩

/-- The clamp pattern of the brake branch of the weight-transfer stage:
front = min 0.8 (wd + t), rear = max 0.2 (1 - front). -/
theorem wtPairDown (wd t : ℚ) (h1 : (0.2:ℚ) ≤ wd) (h2 : wd ≤ 0.8) (ht : 0 ≤ t) :
    min 0.8 (wd + t) + max 0.2 (1 - min 0.8 (wd + t)) = 1 ∧
    (0.2:ℚ) ≤ min 0.8 (wd + t) ∧ min (0.8:ℚ) (wd + t) ≤ 0.8 ∧
    (0.2:ℚ) ≤ max 0.2 (1 - min 0.8 (wd + t)) ∧
    max (0.2:ℚ) (1 - min 0.8 (wd + t)) ≤ 0.8 := by
  have hfw2 : min (0.8:ℚ) (wd + t) ≤ 0.8 := min_le_left _ _
  have hfw1 : (0.2:ℚ) ≤ min 0.8 (wd + t) := le_min (by norm_num) (by linarith)
  have hmax : max (0.2:ℚ) (1 - min 0.8 (wd + t)) = 1 - min 0.8 (wd + t) :=
    max_eq_right (by linarith)
  rw [hmax]
  exact ⟨by ring, hfw1, hfw2, by linarith, by linarith⟩

/-- Claim C1 (amended): after the weight-transfer stage the two fractions
always sum to 1, and both lie in [0.2, 0.8] provided the static
weightDistribution itself lies in [0.2, 0.8] (not merely [0,1]) and the
transfer inputs are nonnegative with positive mass. -/
theorem c1_weight_fractions_amended
    (wd wta wtb accel bf mass : ℚ) (up down : Bool)
    (hwd1 : (0.2:ℚ) ≤ wd) (hwd2 : wd ≤ 0.8)
    (hwta : 0 ≤ wta) (hwtb : 0 ≤ wtb) (haccel : 0 ≤ accel) (hbf : 0 ≤ bf)
    (hm : 0 < mass) :
    (weightTransferStage wd wta wtb accel bf mass up down).1 +
      (weightTransferStage wd wta wtb accel bf mass up down).2 = 1 ∧
    (0.2:ℚ) ≤ (weightTransferStage wd wta wtb accel bf mass up down).1 ∧
    (weightTransferStage wd wta wtb accel bf mass up down).1 ≤ 0.8 ∧
    (0.2:ℚ) ≤ (weightTransferStage wd wta wtb accel bf mass up down).2 ∧
    (weightTransferStage wd wta wtb accel bf mass up down).2 ≤ 0.8 := by
  have hta : (0:ℚ) ≤ wta * (accel * 400 / mass / 9.81) * 0.01 := by
    have h0 : (0:ℚ) ≤ accel * 400 := by positivity
    have h1 : (0:ℚ) ≤ accel * 400 / mass := div_nonneg h0 hm.le
    have h2 : (0:ℚ) ≤ accel * 400 / mass / 9.81 := div_nonneg h1 (by norm_num)
    exact mul_nonneg (mul_nonneg hwta h2) (by norm_num)
  have htb : (0:ℚ) ≤ wtb * (bf * 150 / mass / 9.81) * 0.01 := by
    have h0 : (0:ℚ) ≤ bf * 150 := by positivity
    have h1 : (0:ℚ) ≤ bf * 150 / mass := div_nonneg h0 hm.le
    have h2 : (0:ℚ) ≤ bf * 150 / mass / 9.81 := div_nonneg h1 (by norm_num)
    exact mul_nonneg (mul_nonneg hwtb h2) (by norm_num)
  cases up <;> cases down <;>
    simp only [weightTransferStage, Bool.and_true, Bool.and_false, Bool.not_true,
      Bool.not_false, Bool.true_and, Bool.false_and, Bool.and_self,
      if_true, if_false, ite_true, ite_false, Bool.false_eq_true, Bool.true_eq_false]
  · exact ⟨by ring, hwd1, hwd2, by linarith, by linarith⟩
  · exact wtPairDown wd _ hwd1 hwd2 htb
  · exact wtPairUp wd _ hwd1 hwd2 hta
  · exact wtPairDown wd _ hwd1 hwd2 htb

/-- Witness for c1_weight_fractions_amended at the documented defaults
(weightDistribution 0.5, transfer gains 0.4 and 0.5, acceleration 0.3,
brakeForce 1.2, mass 1100) under throttle. -/
theorem c1_weight_fractions_amended_witness :
    (weightTransferStage (1/2) (2/5) (1/2) (3/10) (6/5) 1100 true false).1 +
      (weightTransferStage (1/2) (2/5) (1/2) (3/10) (6/5) 1100 true false).2 = 1 ∧
    (0.2:ℚ) ≤ (weightTransferStage (1/2) (2/5) (1/2) (3/10) (6/5) 1100 true false).1 ∧
    (weightTransferStage (1/2) (2/5) (1/2) (3/10) (6/5) 1100 true false).1 ≤ 0.8 ∧
    (0.2:ℚ) ≤ (weightTransferStage (1/2) (2/5) (1/2) (3/10) (6/5) 1100 true false).2 ∧
    (weightTransferStage (1/2) (2/5) (1/2) (3/10) (6/5) 1100 true false).2 ≤ 0.8 :=
  c1_weight_fractions_amended (1/2) (2/5) (1/2) (3/10) (6/5) 1100 true false
    (by norm_num) (by norm_num) (by norm_num) (by norm_num) (by norm_num)
    (by norm_num) (by norm_num)

/-
Claim C2 - the speed-cap stage, GameEngine.tsx lines 2031-2038.  The stage
computes finalSpeed before rescaling, rescales the velocity when finalSpeed
exceeds maxSpeed, and then assigns the PRE-cap finalSpeed to car.speed.
-/

/-- Speed-cap stage (GameEngine.tsx 2031-2038): returns the post-stage
velocity vector and the value the stage assigns to the reported speed
field.  The source computes finalSpeed once, before the rescale, and then
writes that same value to car.speed. -/
noncomputable def speedCapStage (vx vy maxSpeed : ℝ) : (ℝ × ℝ) × ℝ :=
  let finalSpeed := Real.sqrt (vx ^ 2 + vy ^ 2)
  let v :=
    if maxSpeed < finalSpeed then
      (vx * (maxSpeed / finalSpeed), vy * (maxSpeed / finalSpeed))
    else (vx, vy)
  (v, finalSpeed)

/-- Claim C2, counterexample: with velocity (3,4) and maxSpeed 1 the
post-cap magnitude is 1 but the reported speed field is the pre-cap
magnitude 5, so the reported speed does not equal the post-cap magnitude. -/
theorem c2_counterexample :
    (speedCapStage 3 4 1).2 = 5 ∧
    Real.sqrt ((speedCapStage 3 4 1).1.1 ^ 2 + (speedCapStage 3 4 1).1.2 ^ 2) = 1 ∧
    (speedCapStage 3 4 1).2 ≠
      Real.sqrt ((speedCapStage 3 4 1).1.1 ^ 2 + (speedCapStage 3 4 1).1.2 ^ 2) := by
  have h25 : Real.sqrt ((3:ℝ) ^ 2 + 4 ^ 2) = 5 := by
    rw [show ((3:ℝ) ^ 2 + 4 ^ 2) = 5 ^ 2 by norm_num]
    exact Real.sqrt_sq (by norm_num)
  have hstage : speedCapStage 3 4 1 = ((3 * (1 / 5), 4 * (1 / 5)), 5) := by
    simp only [speedCapStage]
    rw [h25]
    norm_num
  rw [hstage]
  have hone : Real.sqrt ((3 * ((1:ℝ) / 5)) ^ 2 + (4 * ((1:ℝ) / 5)) ^ 2) = 1 := by
    rw [show ((3 * ((1:ℝ) / 5)) ^ 2 + (4 * ((1:ℝ) / 5)) ^ 2) = 1 ^ 2 by norm_num]
    exact Real.sqrt_sq (by norm_num)
  refine ⟨rfl, hone, ?_⟩
  rw [hone]
  norm_num

/-- Claim C2 (amended): after the speed-cap stage the velocity magnitude is
at most maxSpeed (for nonnegative maxSpeed), but the reported speed field
equals the PRE-cap magnitude, which may exceed maxSpeed. -/
theorem c2_speed_cap_amended (vx vy maxSpeed : ℝ) (hms : 0 ≤ maxSpeed) :
    Real.sqrt ((speedCapStage vx vy maxSpeed).1.1 ^ 2 +
      (speedCapStage vx vy maxSpeed).1.2 ^ 2) ≤ maxSpeed ∧
    (speedCapStage vx vy maxSpeed).2 = Real.sqrt (vx ^ 2 + vy ^ 2) := by
  have hsum : (0:ℝ) ≤ vx ^ 2 + vy ^ 2 := by positivity
  have hf : 0 ≤ Real.sqrt (vx ^ 2 + vy ^ 2) := Real.sqrt_nonneg _
  by_cases hcap : maxSpeed < Real.sqrt (vx ^ 2 + vy ^ 2)
  · have hfpos : 0 < Real.sqrt (vx ^ 2 + vy ^ 2) := lt_of_le_of_lt hms hcap
    have hk : 0 ≤ maxSpeed / Real.sqrt (vx ^ 2 + vy ^ 2) := by positivity
    have hstage : speedCapStage vx vy maxSpeed =
        ((vx * (maxSpeed / Real.sqrt (vx ^ 2 + vy ^ 2)),
          vy * (maxSpeed / Real.sqrt (vx ^ 2 + vy ^ 2))),
         Real.sqrt (vx ^ 2 + vy ^ 2)) := by
      simp only [speedCapStage]
      rw [if_pos hcap]
    rw [hstage]
    constructor
    · have hexp : (vx * (maxSpeed / Real.sqrt (vx ^ 2 + vy ^ 2))) ^ 2 +
          (vy * (maxSpeed / Real.sqrt (vx ^ 2 + vy ^ 2))) ^ 2 =
          (vx ^ 2 + vy ^ 2) * (maxSpeed / Real.sqrt (vx ^ 2 + vy ^ 2)) ^ 2 := by
        ring
      rw [hexp, Real.sqrt_mul hsum, Real.sqrt_sq hk, mul_comm,
        div_mul_cancel₀ _ (ne_of_gt hfpos)]
    · rfl
  · have hstage : speedCapStage vx vy maxSpeed =
        ((vx, vy), Real.sqrt (vx ^ 2 + vy ^ 2)) := by
      simp only [speedCapStage]
      rw [if_neg hcap]
    rw [hstage]
    exact ⟨le_of_not_lt hcap, rfl⟩

/-- Witness for c2_speed_cap_amended at velocity (3,4) and maxSpeed 2. -/
theorem c2_speed_cap_amended_witness :
    Real.sqrt ((speedCapStage 3 4 2).1.1 ^ 2 + (speedCapStage 3 4 2).1.2 ^ 2) ≤ 2 ∧
    (speedCapStage 3 4 2).2 = Real.sqrt ((3:ℝ) ^ 2 + 4 ^ 2) :=
  c2_speed_cap_amended 3 4 2 (by norm_num)


/-
Claim C3 - the tire grip curve calculateTireGrip, GameEngine.tsx lines
1595-1613.  Math.pow with a real exponent is modelled by Real.rpow (the
base min 1 (excess/falloffRange) is always in [0,1], where the two agree).
-/

/-- Tire grip curve (GameEngine.tsx 1595-1613): linear rise to the peak up
to slipAngleOptimal, flat at tractionPeak up to slipAnglePeak, then a
power-law falloff toward tractionSliding as slip approaches 90 degrees. -/
noncomputable def calculateTireGrip (tractionPeak tractionSliding slipAngleOptimal
    slipAnglePeak tractionFalloff : ℝ) (slipAngleDeg : ℝ) : ℝ :=
  let absSlip := |slipAngleDeg|
  if absSlip ≤ slipAngleOptimal then
    tractionPeak * (absSlip / slipAngleOptimal)
  else if absSlip ≤ slipAnglePeak then
    tractionPeak
  else
    let excess := absSlip - slipAnglePeak
    let falloffRange := 90 - slipAnglePeak
    let t := min 1 (excess / falloffRange)
    let falloffCurve := t ^ tractionFalloff
    tractionPeak - (tractionPeak - tractionSliding) * falloffCurve

/-- Claim C3, counterexample: with tractionPeak 0.5 and tractionSliding 1.0,
both inside their documented ranges (0.5-1.5 and 0.3-1.0), and the default
slip angles and falloff, the curve RISES from 0.5 at slip 25 to 1.0 at slip
90, so it is not non-increasing on [slipAnglePeak, 90]. -/
theorem c3_counterexample :
    ((0.5:ℝ) ≤ 0.5 ∧ (0.5:ℝ) ≤ 1.5 ∧ (0.3:ℝ) ≤ 1.0 ∧ (1.0:ℝ) ≤ 1.0 ∧
      (5:ℝ) ≤ 10 ∧ (10:ℝ) ≤ 20 ∧ (15:ℝ) ≤ 25 ∧ (25:ℝ) ≤ 45 ∧
      (0.5:ℝ) ≤ 1.5 ∧ (1.5:ℝ) ≤ 2.0) ∧
    calculateTireGrip 0.5 1.0 10 25 1.5 25 = 0.5 ∧
    calculateTireGrip 0.5 1.0 10 25 1.5 90 = 1.0 ∧
    calculateTireGrip 0.5 1.0 10 25 1.5 25 < calculateTireGrip 0.5 1.0 10 25 1.5 90 := by
  have h25 : calculateTireGrip 0.5 1.0 10 25 1.5 25 = 0.5 := by
    simp only [calculateTireGrip]
    norm_num
  have h90 : calculateTireGrip 0.5 1.0 10 25 1.5 90 = 1.0 := by
    simp only [calculateTireGrip]
    rw [show |(90:ℝ)| = 90 by norm_num]
    rw [if_neg (by norm_num), if_neg (by norm_num)]
    rw [show ((90:ℝ) - 25) / (90 - 25) = 1 by norm_num]
    rw [min_self, Real.one_rpow]
    norm_num
  refine ⟨by norm_num, h25, h90, ?_⟩
  rw [h25, h90]
  norm_num

/-- Value of the grip curve on the linear-rise branch. -/
theorem tireGrip_lin (tP tS sO sP tF s : ℝ) (hs0 : 0 ≤ s) (hs : s ≤ sO) :
    calculateTireGrip tP tS sO sP tF s = tP * (s / sO) := by
  simp only [calculateTireGrip, abs_of_nonneg hs0, if_pos hs]

/-- Value of the grip curve on the flat branch. -/
theorem tireGrip_flat (tP tS sO sP tF s : ℝ) (hsO : 0 < sO) (h1 : sO ≤ s)
    (h2 : s ≤ sP) : calculateTireGrip tP tS sO sP tF s = tP := by
  have hs0 : 0 ≤ s := le_trans hsO.le h1
  by_cases hlin : s ≤ sO
  · have hseq : s = sO := le_antisymm hlin h1
    rw [tireGrip_lin tP tS sO sP tF s hs0 hlin, hseq, div_self (ne_of_gt hsO), mul_one]
  · simp only [calculateTireGrip, abs_of_nonneg hs0, if_neg hlin, if_pos h2]

/-- Value of the grip curve on the falloff branch. -/
theorem tireGrip_falloff (tP tS sO sP tF s : ℝ) (hsO : 0 < sO) (hsOP : sO ≤ sP)
    (hs : sP < s) :
    calculateTireGrip tP tS sO sP tF s =
      tP - (tP - tS) * (min 1 ((s - sP) / (90 - sP))) ^ tF := by
  have hs0 : 0 ≤ s := le_trans (le_trans hsO.le hsOP) hs.le
  have h1 : ¬(s ≤ sO) := not_le.mpr (lt_of_le_of_lt hsOP hs)
  have h2 : ¬(s ≤ sP) := not_le.mpr hs
  simp only [calculateTireGrip, abs_of_nonneg hs0, if_neg h1, if_neg h2]

/-- Claim C3 (amended): the four-segment shape of the grip curve holds
provided slipAngleOptimal ≤ slipAnglePeak and tractionSliding ≤ tractionPeak
(the documented ranges allow both to be violated): the curve is
non-decreasing on [0, slipAngleOptimal], equals tractionPeak on
[slipAngleOptimal, slipAnglePeak], is non-increasing on [slipAnglePeak, 90],
and equals tractionSliding for every slip angle at least 90. -/
theorem c3_tire_grip_amended (tP tS sO sP tF : ℝ)
    (hsO : 0 < sO) (hsOP : sO ≤ sP) (hsP : sP < 90)
    (htS : 0 ≤ tS) (htSP : tS ≤ tP) (htF : 0 ≤ tF) :
    MonotoneOn (calculateTireGrip tP tS sO sP tF) (Set.Icc 0 sO) ∧
    (∀ s, sO ≤ s → s ≤ sP → calculateTireGrip tP tS sO sP tF s = tP) ∧
    AntitoneOn (calculateTireGrip tP tS sO sP tF) (Set.Icc sP 90) ∧
    (∀ s, 90 ≤ s → calculateTireGrip tP tS sO sP tF s = tS) := by
  have htP : 0 ≤ tP := le_trans htS htSP
  have hrangepos : (0:ℝ) < 90 - sP := by linarith
  refine ⟨?_, ?_, ?_, ?_⟩
  · intro a ha b hb hab
    rw [tireGrip_lin tP tS sO sP tF a ha.1 ha.2, tireGrip_lin tP tS sO sP tF b hb.1 hb.2]
    exact mul_le_mul_of_nonneg_left ((div_le_div_right hsO).mpr hab) htP
  · exact fun s h1 h2 => tireGrip_flat tP tS sO sP tF s hsO h1 h2
  · intro a ha b hb hab
    have hgb_le_tP : ∀ x, sP < x → calculateTireGrip tP tS sO sP tF x ≤ tP := by
      intro x hx
      rw [tireGrip_falloff tP tS sO sP tF x hsO hsOP hx]
      have htx : (0:ℝ) ≤ min 1 ((x - sP) / (90 - sP)) ^ tF :=
        Real.rpow_nonneg
          (le_min (by norm_num)
            (div_nonneg (by linarith) hrangepos.le)) tF
      nlinarith [mul_nonneg (sub_nonneg.mpr htSP) htx]
    by_cases hasP : a ≤ sP
    · have haeq : a = sP := le_antisymm hasP ha.1
      rw [haeq, tireGrip_flat tP tS sO sP tF sP hsO hsOP le_rfl]
      by_cases hbsP : b ≤ sP
      · rw [tireGrip_flat tP tS sO sP tF b hsO (le_trans hsOP hb.1) hbsP]
      · exact hgb_le_tP b (not_le.mp hbsP)
    · have haP : sP < a := not_le.mp hasP
      have hbP : sP < b := lt_of_lt_of_le haP hab
      rw [tireGrip_falloff tP tS sO sP tF a hsO hsOP haP,
        tireGrip_falloff tP tS sO sP tF b hsO hsOP hbP]
      have hta0 : (0:ℝ) ≤ min 1 ((a - sP) / (90 - sP)) :=
        le_min (by norm_num) (div_nonneg (by linarith [ha.1]) hrangepos.le)
      have htab : min 1 ((a - sP) / (90 - sP)) ≤ min 1 ((b - sP) / (90 - sP)) :=
        min_le_min le_rfl ((div_le_div_right hrangepos).mpr (by linarith))
      have hpow : min 1 ((a - sP) / (90 - sP)) ^ tF ≤
          min 1 ((b - sP) / (90 - sP)) ^ tF :=
        Real.rpow_le_rpow hta0 htab htF
      nlinarith [mul_le_mul_of_nonneg_left hpow (sub_nonneg.mpr htSP)]
  · intro s hs
    have hsPs : sP < s := lt_of_lt_of_le hsP hs
    rw [tireGrip_falloff tP tS sO sP tF s hsO hsOP hsPs]
    have hone : min 1 ((s - sP) / (90 - sP)) = 1 := by
      apply min_eq_left
      rw [le_div_iff hrangepos]
      linarith
    rw [hone, Real.one_rpow]
    ring

/-- Witness for c3_tire_grip_amended at the documented default tuning
(tractionPeak 1, tractionSliding 0.7, slipAngleOptimal 10, slipAnglePeak 25,
tractionFalloff 1.5). -/
theorem c3_tire_grip_amended_witness :
    MonotoneOn (calculateTireGrip 1 0.7 10 25 1.5) (Set.Icc 0 10) ∧
    (∀ s, (10:ℝ) ≤ s → s ≤ 25 → calculateTireGrip 1 0.7 10 25 1.5 s = 1) ∧
    AntitoneOn (calculateTireGrip 1 0.7 10 25 1.5) (Set.Icc 25 90) ∧
    (∀ s, (90:ℝ) ≤ s → calculateTireGrip 1 0.7 10 25 1.5 s = 0.7) :=
  c3_tire_grip_amended 1 0.7 10 25 1.5 (by norm_num) (by norm_num) (by norm_num)
    (by norm_num) (by norm_num) (by norm_num)

/-
Grid-city generator - the urban world module (src/unnamed/part_002).
Tile-local geometry is exact rational; the seeded pseudo-random draw uses
Math.sin of a 32-bit mixed seed, modelled with Real.sin and the JS ToInt32
conversion (coordinates small enough that float64 products are exact).
-/

inductive EdgeType
  | ROAD
  | BUILDING
deriving DecidableEq

inductive TileType
  | CROSSROADS
  | STRAIGHT_NS
  | STRAIGHT_EW
  | CORNER_NE
  | CORNER_ES
  | CORNER_SW
  | CORNER_NW
  | T_JUNCTION_NES
  | T_JUNCTION_ESW
  | T_JUNCTION_NSW
  | T_JUNCTION_NEW
  | DEAD_END_N
  | DEAD_END_E
  | DEAD_END_S
  | DEAD_END_W
  | EMPTY
deriving DecidableEq

structure TileEdges where
  north : EdgeType
  east : EdgeType
  south : EdgeType
  west : EdgeType
deriving DecidableEq

structure RoadZone where
  x : ℚ
  y : ℚ
  width : ℚ
  height : ℚ
deriving DecidableEq

structure BuildingFootprint where
  x : ℝ
  y : ℝ
  width : ℝ
  height : ℝ
  color : String

structure CityTile where
  type : TileType
  edges : TileEdges
  roadZones : List RoadZone
  buildings : List BuildingFootprint

def TILE_SIZE : ℚ := 800
def ROAD_WIDTH : ℚ := 200
def BUILDING_MARGIN : ℚ := 20
def LOAD_RADIUS : ℤ := 3

open EdgeType in
/-- Edge labels of TILE_DEFINITIONS, per archetype. -/
def tileEdges : TileType → TileEdges
  | .CROSSROADS => ⟨ROAD, ROAD, ROAD, ROAD⟩
  | .STRAIGHT_NS => ⟨ROAD, BUILDING, ROAD, BUILDING⟩
  | .STRAIGHT_EW => ⟨BUILDING, ROAD, BUILDING, ROAD⟩
  | .CORNER_NE => ⟨ROAD, ROAD, BUILDING, BUILDING⟩
  | .CORNER_ES => ⟨BUILDING, ROAD, ROAD, BUILDING⟩
  | .CORNER_SW => ⟨BUILDING, BUILDING, ROAD, ROAD⟩
  | .CORNER_NW => ⟨ROAD, BUILDING, BUILDING, ROAD⟩
  | .T_JUNCTION_NES => ⟨ROAD, ROAD, ROAD, BUILDING⟩
  | .T_JUNCTION_ESW => ⟨BUILDING, ROAD, ROAD, ROAD⟩
  | .T_JUNCTION_NSW => ⟨ROAD, BUILDING, ROAD, ROAD⟩
  | .T_JUNCTION_NEW => ⟨ROAD, ROAD, BUILDING, ROAD⟩
  | .DEAD_END_N => ⟨ROAD, BUILDING, BUILDING, BUILDING⟩
  | .DEAD_END_E => ⟨BUILDING, ROAD, BUILDING, BUILDING⟩
  | .DEAD_END_S => ⟨BUILDING, BUILDING, ROAD, BUILDING⟩
  | .DEAD_END_W => ⟨BUILDING, BUILDING, BUILDING, ROAD⟩
  | .EMPTY => ⟨BUILDING, BUILDING, BUILDING, BUILDING⟩

/-- Road rectangles of TILE_DEFINITIONS, per archetype, in tile-local space. -/
def tileRoadZones : TileType → List RoadZone
  | .CROSSROADS =>
      [⟨(TILE_SIZE - ROAD_WIDTH) / 2, 0, ROAD_WIDTH, TILE_SIZE⟩,
       ⟨0, (TILE_SIZE - ROAD_WIDTH) / 2, TILE_SIZE, ROAD_WIDTH⟩]
  | .STRAIGHT_NS =>
      [⟨(TILE_SIZE - ROAD_WIDTH) / 2, 0, ROAD_WIDTH, TILE_SIZE⟩]
  | .STRAIGHT_EW =>
      [⟨0, (TILE_SIZE - ROAD_WIDTH) / 2, TILE_SIZE, ROAD_WIDTH⟩]
  | .CORNER_NE =>
      [⟨(TILE_SIZE - ROAD_WIDTH) / 2, 0, ROAD_WIDTH, (TILE_SIZE + ROAD_WIDTH) / 2⟩,
       ⟨(TILE_SIZE - ROAD_WIDTH) / 2, (TILE_SIZE - ROAD_WIDTH) / 2,
        (TILE_SIZE + ROAD_WIDTH) / 2, ROAD_WIDTH⟩]
  | .CORNER_ES =>
      [⟨(TILE_SIZE - ROAD_WIDTH) / 2, (TILE_SIZE - ROAD_WIDTH) / 2, ROAD_WIDTH,
        (TILE_SIZE + ROAD_WIDTH) / 2⟩,
       ⟨(TILE_SIZE - ROAD_WIDTH) / 2, (TILE_SIZE - ROAD_WIDTH) / 2,
        (TILE_SIZE + ROAD_WIDTH) / 2, ROAD_WIDTH⟩]
  | .CORNER_SW =>
      [⟨(TILE_SIZE - ROAD_WIDTH) / 2, (TILE_SIZE - ROAD_WIDTH) / 2, ROAD_WIDTH,
        (TILE_SIZE + ROAD_WIDTH) / 2⟩,
       ⟨0, (TILE_SIZE - ROAD_WIDTH) / 2, (TILE_SIZE + ROAD_WIDTH) / 2, ROAD_WIDTH⟩]
  | .CORNER_NW =>
      [⟨(TILE_SIZE - ROAD_WIDTH) / 2, 0, ROAD_WIDTH, (TILE_SIZE + ROAD_WIDTH) / 2⟩,
       ⟨0, (TILE_SIZE - ROAD_WIDTH) / 2, (TILE_SIZE + ROAD_WIDTH) / 2, ROAD_WIDTH⟩]
  | .T_JUNCTION_NES =>
      [⟨(TILE_SIZE - ROAD_WIDTH) / 2, 0, ROAD_WIDTH, TILE_SIZE⟩,
       ⟨(TILE_SIZE - ROAD_WIDTH) / 2, (TILE_SIZE - ROAD_WIDTH) / 2,
        (TILE_SIZE + ROAD_WIDTH) / 2, ROAD_WIDTH⟩]
  | .T_JUNCTION_ESW =>
      [⟨0, (TILE_SIZE - ROAD_WIDTH) / 2, TILE_SIZE, ROAD_WIDTH⟩,
       ⟨(TILE_SIZE - ROAD_WIDTH) / 2, (TILE_SIZE - ROAD_WIDTH) / 2, ROAD_WIDTH,
        (TILE_SIZE + ROAD_WIDTH) / 2⟩]
  | .T_JUNCTION_NSW =>
      [⟨(TILE_SIZE - ROAD_WIDTH) / 2, 0, ROAD_WIDTH, TILE_SIZE⟩,
       ⟨0, (TILE_SIZE - ROAD_WIDTH) / 2, (TILE_SIZE + ROAD_WIDTH) / 2, ROAD_WIDTH⟩]
  | .T_JUNCTION_NEW =>
      [⟨0, (TILE_SIZE - ROAD_WIDTH) / 2, TILE_SIZE, ROAD_WIDTH⟩,
       ⟨(TILE_SIZE - ROAD_WIDTH) / 2, 0, ROAD_WIDTH, (TILE_SIZE + ROAD_WIDTH) / 2⟩]
  | .DEAD_END_N =>
      [⟨(TILE_SIZE - ROAD_WIDTH) / 2, 0, ROAD_WIDTH, (TILE_SIZE + ROAD_WIDTH) / 2⟩]
  | .DEAD_END_E =>
      [⟨(TILE_SIZE - ROAD_WIDTH) / 2, (TILE_SIZE - ROAD_WIDTH) / 2,
        (TILE_SIZE + ROAD_WIDTH) / 2, ROAD_WIDTH⟩]
  | .DEAD_END_S =>
      [⟨(TILE_SIZE - ROAD_WIDTH) / 2, (TILE_SIZE - ROAD_WIDTH) / 2, ROAD_WIDTH,
        (TILE_SIZE + ROAD_WIDTH) / 2⟩]
  | .DEAD_END_W =>
      [⟨0, (TILE_SIZE - ROAD_WIDTH) / 2, (TILE_SIZE + ROAD_WIDTH) / 2, ROAD_WIDTH⟩]
  | .EMPTY => []

/-- The 16 archetypes in the insertion order of TILE_DEFINITIONS, the order
Object.entries enumerates for the candidate filter. -/
def tileCatalog : List TileType :=
  [.CROSSROADS, .STRAIGHT_NS, .STRAIGHT_EW, .CORNER_NE, .CORNER_ES, .CORNER_SW,
   .CORNER_NW, .T_JUNCTION_NES, .T_JUNCTION_ESW, .T_JUNCTION_NSW, .T_JUNCTION_NEW,
   .DEAD_END_N, .DEAD_END_E, .DEAD_END_S, .DEAD_END_W, .EMPTY]

/-- JS ToInt32: reduce an integer to the signed 32-bit range. -/
def toInt32 (n : ℤ) : ℤ :=
  let m := n % 4294967296
  if m < 2147483648 then m else m - 4294967296

/-- JS `a ^ b` (bitwise xor): both operands pass through ToInt32 and the
result is read back as a signed 32-bit integer. -/
def jsXor (a b : ℤ) : ℤ :=
  let ua := (a % 4294967296).toNat
  let ub := (b % 4294967296).toNat
  toInt32 ((Nat.xor ua ub : ℕ) : ℤ)

/-- seedRandom (part_002 lines 123-127): hash of (gx, gy, worldSeed) through
Math.sin; the result x - Math.floor(x) is the fractional part of
sin(seed) * 10000. -/
noncomputable def seedRandom (gx gy worldSeed : ℤ) : ℝ :=
  let seed := jsXor (jsXor (gx * 73856093) (gy * 19349663)) (worldSeed * 83492791)
  let x := Real.sin (seed : ℝ) * 10000
  x - ⌊x⌋

/-- The draw of seedRandom is the fractional part of sin(seed) * 10000. -/
theorem seedRandom_eq_fract (gx gy w : ℤ) :
    seedRandom gx gy w = Int.fract (Real.sin
      ((jsXor (jsXor (gx * 73856093) (gy * 19349663)) (w * 83492791) : ℤ) : ℝ)
        * 10000) := rfl

theorem seedRandom_nonneg (gx gy w : ℤ) : 0 ≤ seedRandom gx gy w := by
  rw [seedRandom_eq_fract]
  exact Int.fract_nonneg _

theorem seedRandom_lt_one (gx gy w : ℤ) : seedRandom gx gy w < 1 := by
  rw [seedRandom_eq_fract]
  exact Int.fract_lt_one _

/-- The neighbor constraints read by generateTile: the adjoining edge label
of each already-loaded neighbor, or none when the neighbor is absent. -/
structure EdgeConstraints where
  north : Option EdgeType
  east : Option EdgeType
  south : Option EdgeType
  west : Option EdgeType

/-- getValidTileTypes (part_002 lines 130-145): the archetypes whose facing
edges match every present constraint, in catalog order. -/
def getValidTileTypes (c : EdgeConstraints) : List TileType :=
  tileCatalog.filter (fun t =>
    (match c.north with | some e => (tileEdges t).north == e | none => true) &&
    (match c.east with | some e => (tileEdges t).east == e | none => true) &&
    (match c.south with | some e => (tileEdges t).south == e | none => true) &&
    (match c.west with | some e => (tileEdges t).west == e | none => true))

def BUILDING_COLORS : List String :=
  ["#8b4513", "#696969", "#2f4f4f", "#8b0000", "#556b2f"]

/-- The k-th value the local rand() closure of generateBuildings returns:
seedRandom(gx + k, gy + (k+1)*7, worldSeed), because the postincrement in
the first argument is evaluated before the second argument. -/
noncomputable def buildingRand (gx gy worldSeed : ℤ) (k : ℕ) : ℝ :=
  seedRandom (gx + k) (gy + (k + 1) * 7) worldSeed

/-- The four candidate building quadrants (x, y, w, h) of generateBuildings. -/
def buildingQuadrants : List (ℚ × ℚ × ℚ × ℚ) :=
  [(BUILDING_MARGIN, BUILDING_MARGIN,
    TILE_SIZE / 2 - BUILDING_MARGIN * 2, TILE_SIZE / 2 - BUILDING_MARGIN * 2),
   (TILE_SIZE / 2 + BUILDING_MARGIN, BUILDING_MARGIN,
    TILE_SIZE / 2 - BUILDING_MARGIN * 2, TILE_SIZE / 2 - BUILDING_MARGIN * 2),
   (BUILDING_MARGIN, TILE_SIZE / 2 + BUILDING_MARGIN,
    TILE_SIZE / 2 - BUILDING_MARGIN * 2, TILE_SIZE / 2 - BUILDING_MARGIN * 2),
   (TILE_SIZE / 2 + BUILDING_MARGIN, TILE_SIZE / 2 + BUILDING_MARGIN,
    TILE_SIZE / 2 - BUILDING_MARGIN * 2, TILE_SIZE / 2 - BUILDING_MARGIN * 2)]

/-- Inner loop of generateBuildings: emit `n` more buildings in the current
quadrant, at running building index `i` and rand-counter `k`; returns the
buildings and the final counter.  Each building consumes five draws, in the
evaluation order x, y, width, height, color of the object literal. -/
noncomputable def buildLoop (gx gy w : ℤ) (qx qy qw qh : ℚ) :
    ℕ → ℕ → ℕ → List BuildingFootprint × ℕ
  | 0, _, k => ([], k)
  | n + 1, i, k =>
    let bw := qw / 2 - 10
    let bh := qh / 2 - 10
    let b : BuildingFootprint :=
      { x := (qx : ℝ) + ((i % 2 : ℕ) : ℝ) * ((qw : ℝ) / 2) + buildingRand gx gy w k * 10,
        y := (qy : ℝ) + ((i / 2 : ℕ) : ℝ) * ((qh : ℝ) / 2) +
          buildingRand gx gy w (k + 1) * 10,
        width := (bw : ℝ) + buildingRand gx gy w (k + 2) * 20 - 10,
        height := (bh : ℝ) + buildingRand gx gy w (k + 3) * 20 - 10,
        color := BUILDING_COLORS.getD
          (⌊buildingRand gx gy w (k + 4) * (BUILDING_COLORS.length : ℝ)⌋).toNat "" }
    let rest := buildLoop gx gy w qx qy qw qh n (i + 1) (k + 5)
    (b :: rest.1, rest.2)

/-- Outer loop of generateBuildings over the quadrants, threading the
rand-counter; quadrants overlapping a road zone are skipped without
consuming draws, exactly as in the source. -/
noncomputable def quadLoop (zones : List RoadZone) (gx gy w : ℤ) :
    List (ℚ × ℚ × ℚ × ℚ) → ℕ → List BuildingFootprint
  | [], _ => []
  | (qx, qy, qw, qh) :: rest, k =>
    let overlapsRoad := zones.any (fun z =>
      !(decide (qx + qw < z.x) || decide (qx > z.x + z.width) ||
        decide (qy + qh < z.y) || decide (qy > z.y + z.height)))
    if overlapsRoad then quadLoop zones gx gy w rest k
    else
      let buildingCount := 1 + (⌊buildingRand gx gy w k * 3⌋).toNat
      let res := buildLoop gx gy w qx qy qw qh buildingCount 0 (k + 1)
      res.1 ++ quadLoop zones gx gy w rest res.2

/-- generateBuildings (part_002 lines 202-246). -/
noncomputable def generateBuildings (tileType : TileType) (gx gy worldSeed : ℤ) :
    List BuildingFootprint :=
  quadLoop (tileRoadZones tileType) gx gy worldSeed buildingQuadrants 0

/-- The constraints block of generateTile: each present neighbor pins the
facing edge (northTile?.edges.south ?? null and its three rotations). -/
def neighborConstraints (gx gy : ℤ) (loadedTiles : ℤ × ℤ → Option CityTile) :
    EdgeConstraints where
  north := (loadedTiles (gx, gy - 1)).map (fun t => t.edges.south)
  east := (loadedTiles (gx + 1, gy)).map (fun t => t.edges.west)
  south := (loadedTiles (gx, gy + 1)).map (fun t => t.edges.north)
  west := (loadedTiles (gx - 1, gy)).map (fun t => t.edges.east)

/-- generateTile (part_002 lines 148-197).  The JS Map keyed by the string
`gx,gy` is modelled as a lookup function on coordinates.  The candidate
index floor(rand * length) is always in range (rand lies in [0,1) and the
list is nonempty), so the out-of-range default of getD is never consumed. -/
noncomputable def generateTile (gx gy worldSeed : ℤ)
    (loadedTiles : ℤ × ℤ → Option CityTile) : CityTile :=
  if gx = 0 ∧ gy = 0 then
    { type := TileType.CROSSROADS,
      edges := tileEdges TileType.CROSSROADS,
      roadZones := tileRoadZones TileType.CROSSROADS,
      buildings := generateBuildings TileType.CROSSROADS gx gy worldSeed }
  else
    let constraints := neighborConstraints gx gy loadedTiles
    let validTypes0 := getValidTileTypes constraints
    let validTypes := if validTypes0 = [] then [TileType.CROSSROADS] else validTypes0
    let rand := seedRandom gx gy worldSeed
    let selectedType :=
      validTypes.getD (⌊rand * (validTypes.length : ℝ)⌋).toNat TileType.CROSSROADS
    { type := selectedType,
      edges := tileEdges selectedType,
      roadZones := tileRoadZones selectedType,
      buildings := generateBuildings selectedType gx gy worldSeed }

/-- When the constraints pin the candidate list to a single archetype, the
seeded selection returns it whatever the value of the hash draw. -/
theorem generateTile_type_of_singleton (gx gy w : ℤ)
    (m : ℤ × ℤ → Option CityTile) (t : TileType) (hne : ¬(gx = 0 ∧ gy = 0))
    (hvalid : getValidTileTypes (neighborConstraints gx gy m) = [t]) :
    (generateTile gx gy w m).type = t := by
  have hr0 : 0 ≤ seedRandom gx gy w := seedRandom_nonneg gx gy w
  have hr1 : seedRandom gx gy w < 1 := seedRandom_lt_one gx gy w
  have hfloor : ⌊seedRandom gx gy w * ((1:ℕ) : ℝ)⌋ = 0 := by
    rw [Nat.cast_one, mul_one]
    exact Int.floor_eq_zero_iff.mpr ⟨hr0, hr1⟩
  unfold generateTile
  rw [if_neg hne]
  simp only [hvalid, List.length_cons, List.length_nil]
  rw [if_neg (by simp : ¬([t] : List TileType) = [])]
  simp only [List.length_cons, List.length_nil, Nat.zero_add, hfloor]
  rfl

/-- A CROSSROADS tile as stored in the loaded-tile map (buildings empty:
only the edge labels are read through the constraint path). -/
def crossNeighborTile : CityTile :=
  { type := TileType.CROSSROADS, edges := tileEdges TileType.CROSSROADS,
    roadZones := tileRoadZones TileType.CROSSROADS, buildings := [] }

/-- An EMPTY (all-building) tile as stored in the loaded-tile map. -/
def emptyNeighborTile : CityTile :=
  { type := TileType.EMPTY, edges := tileEdges TileType.EMPTY,
    roadZones := tileRoadZones TileType.EMPTY, buildings := [] }

/-- A load state in which all four neighbors of (5,7) are CROSSROADS tiles,
so every facing edge constraint is ROAD. -/
def allRoadNeighborhood : ℤ × ℤ → Option CityTile := fun p =>
  if p = (5, 6) ∨ p = (6, 7) ∨ p = (5, 8) ∨ p = (4, 7) then some crossNeighborTile
  else none

/-- A load state in which all four neighbors of (5,7) are EMPTY tiles,
so every facing edge constraint is BUILDING. -/
def allBuildingNeighborhood : ℤ × ℤ → Option CityTile := fun p =>
  if p = (5, 6) ∨ p = (6, 7) ∨ p = (5, 8) ∨ p = (4, 7) then some emptyNeighborTile
  else none

/-- Claim C4 (evaluation at the failing input): at coordinate (5,7) with
world seed 999, generateTile returns the CROSSROADS archetype when the four
loaded neighbors face it with ROAD edges, and the EMPTY archetype when they
face it with BUILDING edges - in both cases whatever the value of the hash
draw, because the constraint filter leaves a single candidate.  Regeneration
of an evicted tile therefore depends on which neighbors happen to be loaded:
the same (gx, gy, worldSeed) does not always reproduce the same tile. -/
theorem c4_failing_input_eval :
    (generateTile 5 7 999 allRoadNeighborhood).type = TileType.CROSSROADS ∧
    (generateTile 5 7 999 allBuildingNeighborhood).type = TileType.EMPTY ∧
    generateTile 5 7 999 allRoadNeighborhood ≠
      generateTile 5 7 999 allBuildingNeighborhood := by
  have h1 : (generateTile 5 7 999 allRoadNeighborhood).type = TileType.CROSSROADS :=
    generateTile_type_of_singleton 5 7 999 allRoadNeighborhood TileType.CROSSROADS
      (by decide) (by decide)
  have h2 : (generateTile 5 7 999 allBuildingNeighborhood).type = TileType.EMPTY :=
    generateTile_type_of_singleton 5 7 999 allBuildingNeighborhood TileType.EMPTY
      (by decide) (by decide)
  refine ⟨h1, h2, fun heq => ?_⟩
  have hcontra : TileType.CROSSROADS = TileType.EMPTY := by rw [← h1, heq, h2]
  exact absurd hcontra (by decide)

/-
Infinite-corridor generator (GameEngine.tsx 2045-2150): pattern state
machine LONG_STRAIGHT -> HAIRPIN -> LONG_STRAIGHT -> SLIGHT_TURN_SEQUENCE.
Every Math.random() draw of one generated segment is modelled as one field
of a fresh oracle record (unused fields are simply ignored), so the
theorems below hold for every possible sequence of draws.  The appended
track point depends only on the previous two points and the eased
curvature, not on the generator state, and is outside the claims settled
here, so the step function carries the generator state alone.
-/

inductive CorridorMode
  | LONG_STRAIGHT
  | HAIRPIN
  | SLIGHT_TURN_SEQUENCE
deriving DecidableEq

structure CorridorGenState where
  mode : CorridorMode
  remainingSteps : ℤ
  targetCurvature : ℝ
  currentCurvature : ℝ
  turnSequenceCount : ℤ
  patternPhase : ℤ
  cumulativeAngle : ℝ
  lastHairpinDirection : ℤ

/-- Initial generator state (GameEngine.tsx 1302-1312). -/
def corridorInitState : CorridorGenState where
  mode := .LONG_STRAIGHT
  remainingSteps := 60
  targetCurvature := 0
  currentCurvature := 0
  turnSequenceCount := 0
  patternPhase := 0
  cumulativeAngle := 0
  lastHairpinDirection := 0

/-- One fresh oracle value per potential Math.random() call site of a
single generated segment. -/
structure CorridorRand where
  rStraightSteps : ℝ
  rHairpinDir : ℝ
  rHairpinSegs : ℝ
  rTurnDir : ℝ
  rTurnCurv : ℝ
  rTurnSteps : ℝ
  rSeqReverse : ℝ
  rSeqCurv : ℝ
  rSeqSteps : ℝ

/-- Math.sign. -/
noncomputable def jsSign (x : ℝ) : ℝ :=
  if x > 0 then 1 else if x < 0 then -1 else 0

/-- The pattern-phase transition block (GameEngine.tsx 2059-2101), which
runs when remainingSteps has reached 0; besides the new state it reports
the direction of a hairpin entered by this transition, when one was. -/
noncomputable def corridorTransition (gs : CorridorGenState) (o : CorridorRand) :
    CorridorGenState × Option ℤ :=
  if gs.remainingSteps ≤ 0 then
    let phase := (gs.patternPhase + 1).tmod 4
    if phase = 0 ∨ phase = 2 then
      ({ gs with
          patternPhase := phase, mode := .LONG_STRAIGHT, targetCurvature := 0,
          remainingSteps := 40 + ⌊o.rStraightSteps * 40⌋,
          currentCurvature := 0 }, none)
    else if phase = 1 then
      let direction : ℤ :=
        if gs.lastHairpinDirection = 0 then (if o.rHairpinDir > 0.5 then 1 else -1)
        else -gs.lastHairpinDirection
      let segments : ℤ := 25 + ⌊o.rHairpinSegs * 10⌋
      ({ gs with
          patternPhase := phase, mode := .HAIRPIN,
          targetCurvature := (direction : ℝ) * ((Real.pi / 2) / (segments : ℝ)),
          remainingSteps := segments,
          lastHairpinDirection := direction }, some direction)
    else
      let direction : ℤ := if o.rTurnDir > 0.5 then 1 else -1
      ({ gs with
          patternPhase := phase, mode := .SLIGHT_TURN_SEQUENCE,
          turnSequenceCount := 0,
          targetCurvature := (direction : ℝ) * (0.02 + o.rTurnCurv * 0.02),
          remainingSteps := 15 + ⌊o.rTurnSteps * 10⌋ }, none)
  else (gs, none)

/-- The slight-turn-sequence progression block (GameEngine.tsx 2104-2113). -/
noncomputable def corridorTurnSeq (gs : CorridorGenState) (o : CorridorRand) :
    CorridorGenState :=
  if gs.mode = .SLIGHT_TURN_SEQUENCE ∧ gs.remainingSteps = 0 then
    let gs1 := { gs with turnSequenceCount := gs.turnSequenceCount + 1 }
    if gs1.turnSequenceCount < 3 then
      let direction : ℝ :=
        if o.rSeqReverse > 0.3 then -(jsSign gs1.targetCurvature)
        else jsSign gs1.targetCurvature
      { gs1 with
         targetCurvature := direction * (0.02 + o.rSeqCurv * 0.02),
         remainingSteps := 15 + ⌊o.rSeqSteps * 10⌋ }
    else gs1
  else gs

/-- Curvature easing toward the target (GameEngine.tsx 2116-2125). -/
noncomputable def corridorEase (gs : CorridorGenState) : CorridorGenState :=
  let speed : ℝ := if gs.mode = .HAIRPIN then 0.01 else 0.005
  if |gs.currentCurvature - gs.targetCurvature| > 0.001 then
    if gs.currentCurvature < gs.targetCurvature then
      { gs with currentCurvature := gs.currentCurvature + speed }
    else
      { gs with currentCurvature := gs.currentCurvature - speed }
  else { gs with currentCurvature := gs.targetCurvature }

/-- Cumulative-angle decay during straights (GameEngine.tsx 2128-2136). -/
noncomputable def corridorDecay (gs : CorridorGenState) : CorridorGenState :=
  if gs.mode = .LONG_STRAIGHT then
    if |gs.cumulativeAngle| > 0.01 then
      { gs with cumulativeAngle := gs.cumulativeAngle - jsSign gs.cumulativeAngle * 0.01 }
    else { gs with cumulativeAngle := 0 }
  else gs

/-- Per-segment bookkeeping after the point is appended (GameEngine.tsx
2145-2149): the step counter decrements and the cumulative angle gains the
current curvature. -/
def corridorBookkeep (gs : CorridorGenState) : CorridorGenState :=
  { gs with
     remainingSteps := gs.remainingSteps - 1,
     cumulativeAngle := gs.cumulativeAngle + gs.currentCurvature }

/-- The generator-state mutations of one generated segment, in source
order, together with the direction of a hairpin entered at this segment. -/
noncomputable def corridorStep (gs : CorridorGenState) (o : CorridorRand) :
    CorridorGenState × Option ℤ :=
  let t := corridorTransition gs o
  (corridorBookkeep (corridorDecay (corridorEase (corridorTurnSeq t.1 o))), t.2)

/-- The directions of the hairpins entered along a run of the corridor
machine, one oracle record per generated segment. -/
noncomputable def corridorRun (gs : CorridorGenState) : List CorridorRand → List ℤ
  | [] => []
  | o :: os =>
    match corridorStep gs o with
    | (gs1, some d) => d :: corridorRun gs1 os
    | (gs1, none) => corridorRun gs1 os

theorem corridorTurnSeq_lastDir (gs : CorridorGenState) (o : CorridorRand) :
    (corridorTurnSeq gs o).lastHairpinDirection = gs.lastHairpinDirection := by
  unfold corridorTurnSeq
  dsimp only
  repeat' split
  all_goals rfl

theorem corridorEase_lastDir (gs : CorridorGenState) :
    (corridorEase gs).lastHairpinDirection = gs.lastHairpinDirection := by
  unfold corridorEase
  dsimp only
  repeat' split
  all_goals rfl

theorem corridorDecay_lastDir (gs : CorridorGenState) :
    (corridorDecay gs).lastHairpinDirection = gs.lastHairpinDirection := by
  unfold corridorDecay
  repeat' split
  all_goals rfl

theorem corridorBookkeep_lastDir (gs : CorridorGenState) :
    (corridorBookkeep gs).lastHairpinDirection = gs.lastHairpinDirection := rfl

/-- Behavior of the transition block on the remembered hairpin direction:
no event leaves it unchanged; a hairpin entry writes the entered direction,
which is the forced negation of the previous one when one exists, and one
of 1, -1 when there is none. -/
theorem corridorTransition_spec (gs : CorridorGenState) (o : CorridorRand) :
    ((corridorTransition gs o).2 = none →
      (corridorTransition gs o).1.lastHairpinDirection = gs.lastHairpinDirection) ∧
    (∀ d, (corridorTransition gs o).2 = some d →
      (corridorTransition gs o).1.lastHairpinDirection = d ∧
      (gs.lastHairpinDirection = 0 → d = 1 ∨ d = -1) ∧
      (gs.lastHairpinDirection ≠ 0 → d = -gs.lastHairpinDirection)) := by
  unfold corridorTransition
  dsimp only
  split
  · split
    · constructor
      · intro h
        rfl
      · intro d hd
        exact absurd hd (by simp)
    · split
      · constructor
        · intro h
          cases h
        · intro d hd
          have hd2 : (if gs.lastHairpinDirection = 0 then
              (if o.rHairpinDir > 0.5 then (1:ℤ) else -1)
            else -gs.lastHairpinDirection) = d := Option.some.inj hd
          refine ⟨hd2, ?_, ?_⟩
          · intro h0
            rw [← hd2, if_pos h0]
            split
            · exact Or.inl rfl
            · exact Or.inr rfl
          · intro h0
            rw [← hd2, if_neg h0]
      · constructor
        · intro h
          rfl
        · intro d hd
          exact absurd hd (by simp)
  · constructor
    · intro h
      rfl
    · intro d hd
      exact absurd hd (by simp)

theorem corridorStep_lastDir (gs : CorridorGenState) (o : CorridorRand) :
    ((corridorStep gs o).2 = none →
      (corridorStep gs o).1.lastHairpinDirection = gs.lastHairpinDirection) ∧
    (∀ d, (corridorStep gs o).2 = some d →
      (corridorStep gs o).1.lastHairpinDirection = d ∧
      (gs.lastHairpinDirection = 0 → d = 1 ∨ d = -1) ∧
      (gs.lastHairpinDirection ≠ 0 → d = -gs.lastHairpinDirection)) := by
  have hspec := corridorTransition_spec gs o
  have hpipe : (corridorStep gs o).1.lastHairpinDirection =
      (corridorTransition gs o).1.lastHairpinDirection := by
    unfold corridorStep
    rw [corridorBookkeep_lastDir, corridorDecay_lastDir, corridorEase_lastDir,
      corridorTurnSeq_lastDir]
  have hev : (corridorStep gs o).2 = (corridorTransition gs o).2 := rfl
  constructor
  · intro h
    rw [hpipe]
    exact hspec.1 (hev ▸ h)
  · intro d h
    have := hspec.2 d (hev ▸ h)
    exact ⟨hpipe.trans this.1, this.2.1, this.2.2⟩

/-- Alternation of a direction list relative to the direction remembered
from before the list: each entry is 1 or -1, the first negates the
remembered direction when one exists, and each later entry negates its
predecessor. -/
def AltFrom : ℤ → List ℤ → Prop
  | _, [] => True
  | last, d :: ds =>
    (d = 1 ∨ d = -1) ∧ (last ≠ 0 → d = -last) ∧ AltFrom d ds

theorem corridorRun_altFrom (os : List CorridorRand) :
    ∀ gs : CorridorGenState,
      gs.lastHairpinDirection = 0 ∨ gs.lastHairpinDirection = 1 ∨
        gs.lastHairpinDirection = -1 →
      AltFrom gs.lastHairpinDirection (corridorRun gs os) := by
  induction os with
  | nil => intro gs _; trivial
  | cons o os ih =>
    intro gs hgs
    have hspec := corridorStep_lastDir gs o
    have hrun : corridorRun gs (o :: os) =
        match corridorStep gs o with
        | (gs1, some d) => d :: corridorRun gs1 os
        | (gs1, none) => corridorRun gs1 os := rfl
    rcases hev : corridorStep gs o with ⟨gs1, ev⟩
    rw [hev] at hspec
    rw [hrun, hev]
    cases ev with
    | none =>
      show AltFrom gs.lastHairpinDirection (corridorRun gs1 os)
      have h1 : gs1.lastHairpinDirection = gs.lastHairpinDirection := hspec.1 rfl
      have halt := ih gs1 (by rw [h1]; exact hgs)
      rw [h1] at halt
      exact halt
    | some d =>
      show AltFrom gs.lastHairpinDirection (d :: corridorRun gs1 os)
      have hd := hspec.2 d rfl
      have hd1 : gs1.lastHairpinDirection = d := hd.1
      have hdpm : d = 1 ∨ d = -1 := by
        rcases hgs with h0 | h1 | h1
        · exact hd.2.1 h0
        · right; rw [hd.2.2 (by rw [h1]; norm_num), h1]
        · left; rw [hd.2.2 (by rw [h1]; norm_num), h1]; norm_num
      refine ⟨hdpm, fun h0 => hd.2.2 h0, ?_⟩
      have halt := ih gs1 (by rw [hd1]; exact Or.inr hdpm)
      rw [hd1] at halt
      exact halt

theorem altFrom_chain (ds : List ℤ) :
    ∀ last, AltFrom last ds → List.Chain' (fun a b => b = -a) ds := by
  induction ds with
  | nil => intro last _; simp
  | cons d ds ih =>
    intro last h
    obtain ⟨hd1, _, htail⟩ := h
    cases ds with
    | nil => simp
    | cons d2 ds2 =>
      have htail2 := htail
      obtain ⟨_, hrel, _⟩ := htail2
      refine List.chain'_cons.mpr ⟨?_, ih d htail⟩
      exact hrel (by rcases hd1 with h | h <;> rw [h] <;> norm_num)

/-
Descending-pass (touge) generator, src/unnamed/part_004.  The four
potential Math.random() call sites of one generateTougeSegment call are
modelled as one fresh oracle record per step.
-/

inductive TougePhase
  | DESCENT
  | HAIRPIN_SEQUENCE
deriving DecidableEq

structure TougeGenState where
  phase : TougePhase
  descentRemaining : ℤ
  hairpinsInSequence : ℤ
  hairpinsCompleted : ℤ
  currentHairpinDirection : ℤ
  hairpinProgress : ℤ
  currentAngle : ℝ
  targetCurvature : ℝ
  currentCurvature : ℝ

structure TougeRand where
  rWobble : ℝ
  rSeqCount : ℝ
  rDirChoice : ℝ
  rDescentCount : ℝ

def TOUGE_SEGMENT_LENGTH : ℝ := 50
def TOUGE_DESCENT_MIN_SEGMENTS : ℤ := 15
def TOUGE_DESCENT_MAX_SEGMENTS : ℤ := 40
def TOUGE_DESCENT_WOBBLE : ℝ := 0.03
def TOUGE_HAIRPIN_MIN_COUNT : ℤ := 3
def TOUGE_HAIRPIN_MAX_COUNT : ℤ := 9
def TOUGE_HAIRPIN_SEGMENTS : ℤ := 25
noncomputable def TOUGE_HAIRPIN_ANGLE : ℝ := Real.pi * 0.85
def TOUGE_HAIRPIN_TRANSITION : ℤ := 8
noncomputable def TOUGE_ANGLE_CENTER : ℝ := -(Real.pi / 2)
noncomputable def TOUGE_ANGLE_MAX_DEVIATION : ℝ := Real.pi / 3

/-- randomRange (part_004): floor(r * (max - min + 1)) + min. -/
noncomputable def randomRange (lo hi : ℤ) (r : ℝ) : ℤ :=
  ⌊r * ((hi : ℝ) - (lo : ℝ) + 1)⌋ + lo

/-- easeInOutCubic (part_004). -/
noncomputable def easeInOutCubic (t : ℝ) : ℝ :=
  if t < 0.5 then 4 * t ^ 3 else 1 - (-2 * t + 2) ^ 3 / 2

/-- createTougeGenState (part_004 lines 67-79); its two Math.random draws
are passed as oracle values. -/
noncomputable def createTougeGenState (r1 r2 : ℝ) : TougeGenState where
  phase := .DESCENT
  descentRemaining := randomRange TOUGE_DESCENT_MIN_SEGMENTS TOUGE_DESCENT_MAX_SEGMENTS r1
  hairpinsInSequence := 0
  hairpinsCompleted := 0
  currentHairpinDirection := if r2 > 0.5 then 1 else -1
  hairpinProgress := 0
  currentAngle := -(Real.pi / 2)
  targetCurvature := 0
  currentCurvature := 0

/-- clampAngle (part_004 lines 191-195). -/
noncomputable def clampAngle (angle : ℝ) : ℝ :=
  max (TOUGE_ANGLE_CENTER - TOUGE_ANGLE_MAX_DEVIATION)
    (min (TOUGE_ANGLE_CENTER + TOUGE_ANGLE_MAX_DEVIATION) angle)

/-- generateTougeSegment (part_004 lines 84-186): one generated segment,
returning the new point and the new generator state. -/
noncomputable def generateTougeSegment (lastPoint : ℝ × ℝ) (s : TougeGenState)
    (o : TougeRand) : (ℝ × ℝ) × TougeGenState :=
  if s.phase = .DESCENT then
    let s1 := { s with descentRemaining := s.descentRemaining - 1 }
    let wobble := (o.rWobble - 0.5) * TOUGE_DESCENT_WOBBLE
    let angle1 := s.currentAngle + wobble
    let angle2 := angle1 - (angle1 - TOUGE_ANGLE_CENTER) * 0.05
    let s2 :=
      if s1.descentRemaining ≤ 0 then
        { s1 with
           phase := .HAIRPIN_SEQUENCE,
           hairpinsInSequence :=
             randomRange TOUGE_HAIRPIN_MIN_COUNT TOUGE_HAIRPIN_MAX_COUNT o.rSeqCount,
           hairpinsCompleted := 0,
           hairpinProgress := 0,
           currentHairpinDirection := if o.rDirChoice > 0.5 then -1 else 1 }
      else s1
    let angle := clampAngle angle2
    let s3 := { s2 with currentAngle := angle }
    ((lastPoint.1 + Real.cos angle * TOUGE_SEGMENT_LENGTH,
      lastPoint.2 + Real.sin angle * TOUGE_SEGMENT_LENGTH), s3)
  else
    let s1 := { s with hairpinProgress := s.hairpinProgress + 1 }
    let s2 :=
      if s1.hairpinProgress ≤ TOUGE_HAIRPIN_TRANSITION then
        { s1 with
           targetCurvature := (s1.currentHairpinDirection : ℝ) *
             (TOUGE_HAIRPIN_ANGLE / (TOUGE_HAIRPIN_SEGMENTS : ℝ)) *
             easeInOutCubic ((s1.hairpinProgress : ℝ) / (TOUGE_HAIRPIN_TRANSITION : ℝ)) }
      else if s1.hairpinProgress ≤ TOUGE_HAIRPIN_SEGMENTS - TOUGE_HAIRPIN_TRANSITION then
        { s1 with
           targetCurvature := (s1.currentHairpinDirection : ℝ) *
             (TOUGE_HAIRPIN_ANGLE / (TOUGE_HAIRPIN_SEGMENTS : ℝ)) }
      else if s1.hairpinProgress ≤ TOUGE_HAIRPIN_SEGMENTS then
        { s1 with
           targetCurvature := (s1.currentHairpinDirection : ℝ) *
             (TOUGE_HAIRPIN_ANGLE / (TOUGE_HAIRPIN_SEGMENTS : ℝ)) *
             easeInOutCubic (((TOUGE_HAIRPIN_SEGMENTS - s1.hairpinProgress : ℤ) : ℝ) /
               (TOUGE_HAIRPIN_TRANSITION : ℝ)) }
      else s1
    let s3 := { s2 with
       currentCurvature :=
         s2.currentCurvature + (s2.targetCurvature - s2.currentCurvature) * 0.3 }
    let angle1 := s.currentAngle + s3.currentCurvature
    let s4 :=
      if s3.hairpinProgress ≥ TOUGE_HAIRPIN_SEGMENTS then
        let s5 := { s3 with
           hairpinsCompleted := s3.hairpinsCompleted + 1,
           hairpinProgress := 0,
           currentHairpinDirection := -s3.currentHairpinDirection }
        if s5.hairpinsCompleted ≥ s5.hairpinsInSequence then
          { s5 with
             phase := .DESCENT,
             descentRemaining :=
               randomRange TOUGE_DESCENT_MIN_SEGMENTS TOUGE_DESCENT_MAX_SEGMENTS
                 o.rDescentCount,
             targetCurvature := 0, currentCurvature := 0 }
        else s5
      else s3
    let angle := clampAngle angle1
    let s6 := { s4 with currentAngle := angle }
    ((lastPoint.1 + Real.cos angle * TOUGE_SEGMENT_LENGTH,
      lastPoint.2 + Real.sin angle * TOUGE_SEGMENT_LENGTH), s6)

/-- A completion event of the touge machine, read off the pre-step state:
the step about to run completes a hairpin exactly when the phase is
HAIRPIN_SEQUENCE and the incremented progress reaches HAIRPIN_SEGMENTS.
The event records the direction driven during that hairpin and whether it
was the last one of its sequence. -/
def tougeEvent (s : TougeGenState) : Option (ℤ × Bool) :=
  if s.phase = .HAIRPIN_SEQUENCE ∧ TOUGE_HAIRPIN_SEGMENTS ≤ s.hairpinProgress + 1 then
    some (s.currentHairpinDirection,
      if s.hairpinsInSequence ≤ s.hairpinsCompleted + 1 then true else false)
  else none

/-- The hairpin-completion events along a run of the touge generator. -/
noncomputable def tougeEventsRun (p : ℝ × ℝ) (s : TougeGenState) :
    List TougeRand → List (ℤ × Bool)
  | [] => []
  | o :: os =>
    match tougeEvent s with
    | some e =>
      e :: tougeEventsRun (generateTougeSegment p s o).1 (generateTougeSegment p s o).2 os
    | none =>
      tougeEventsRun (generateTougeSegment p s o).1 (generateTougeSegment p s o).2 os

/-- A non-completing hairpin-sequence step keeps the phase and the current
hairpin direction. -/
theorem tougeStep_hairpin_noComplete (p : ℝ × ℝ) (s : TougeGenState) (o : TougeRand)
    (hph : s.phase = .HAIRPIN_SEQUENCE)
    (hno : ¬(TOUGE_HAIRPIN_SEGMENTS ≤ s.hairpinProgress + 1)) :
    (generateTougeSegment p s o).2.phase = .HAIRPIN_SEQUENCE ∧
    (generateTougeSegment p s o).2.currentHairpinDirection = s.currentHairpinDirection := by
  have hnd : ¬(s.phase = TougePhase.DESCENT) := by rw [hph]; simp
  unfold generateTougeSegment
  rw [if_neg hnd]
  dsimp only
  split_ifs
  all_goals exact ⟨hph, rfl⟩

/-- A completing hairpin-sequence step flips the direction; when its
sequence is not finished the phase stays HAIRPIN_SEQUENCE. -/
theorem tougeStep_hairpin_complete (p : ℝ × ℝ) (s : TougeGenState) (o : TougeRand)
    (hph : s.phase = .HAIRPIN_SEQUENCE)
    (hc : TOUGE_HAIRPIN_SEGMENTS ≤ s.hairpinProgress + 1) :
    (generateTougeSegment p s o).2.currentHairpinDirection =
      -s.currentHairpinDirection ∧
    (¬(s.hairpinsInSequence ≤ s.hairpinsCompleted + 1) →
      (generateTougeSegment p s o).2.phase = .HAIRPIN_SEQUENCE) := by
  have hnd : ¬(s.phase = TougePhase.DESCENT) := by rw [hph]; simp
  unfold generateTougeSegment
  rw [if_neg hnd]
  dsimp only
  split_ifs
  all_goals refine ⟨rfl, fun hne => ?_⟩
  all_goals first
    | exact hph
    | exact absurd (by assumption) hne

/-- Alternation of touge completion events relative to a continuation
context: no constraint after a sequence end, otherwise the next completion
must negate the recorded direction. -/
def TougeAlt : Option ℤ → List (ℤ × Bool) → Prop
  | _, [] => True
  | c, e :: es =>
    (∀ d, c = some d → e.1 = -d) ∧ TougeAlt (if e.2 then none else some e.1) es

theorem tougeRun_alt (os : List TougeRand) :
    ∀ (p : ℝ × ℝ) (s : TougeGenState) (c : Option ℤ),
      (∀ d, c = some d → s.phase = .HAIRPIN_SEQUENCE ∧
        s.currentHairpinDirection = -d) →
      TougeAlt c (tougeEventsRun p s os) := by
  induction os with
  | nil => intro p s c _; trivial
  | cons o os ih =>
    intro p s c hinv
    have hrun : tougeEventsRun p s (o :: os) =
        match tougeEvent s with
        | some e => e :: tougeEventsRun (generateTougeSegment p s o).1
            (generateTougeSegment p s o).2 os
        | none => tougeEventsRun (generateTougeSegment p s o).1
            (generateTougeSegment p s o).2 os := rfl
    by_cases hev : s.phase = .HAIRPIN_SEQUENCE ∧
        TOUGE_HAIRPIN_SEGMENTS ≤ s.hairpinProgress + 1
    · have hevs : tougeEvent s = some (s.currentHairpinDirection,
          if s.hairpinsInSequence ≤ s.hairpinsCompleted + 1 then true else false) := by
        unfold tougeEvent
        rw [if_pos hev]
      rw [hrun, hevs]
      refine ⟨fun d hd => (hinv d hd).2, ?_⟩
      have hflip := tougeStep_hairpin_complete p s o hev.1 hev.2
      by_cases hend : s.hairpinsInSequence ≤ s.hairpinsCompleted + 1
      · rw [if_pos hend]
        simp only [if_pos (by trivial : (true : Bool) = true)]
        exact ih _ _ none (fun d hd => by cases hd)
      · rw [if_neg hend]
        simp only [Bool.false_eq_true, if_neg (by simp : ¬((false : Bool) = true))]
        refine ih _ _ (some s.currentHairpinDirection) (fun d hd => ?_)
        have hd2 : s.currentHairpinDirection = d := Option.some.inj hd
        exact ⟨hflip.2 hend, by rw [hflip.1, hd2]⟩
    · have hevn : tougeEvent s = none := by
        unfold tougeEvent
        rw [if_neg hev]
      rw [hrun, hevn]
      refine ih _ _ c (fun d hd => ?_)
      have hi := hinv d hd
      have hno : ¬(TOUGE_HAIRPIN_SEGMENTS ≤ s.hairpinProgress + 1) :=
        fun hcc => hev ⟨hi.1, hcc⟩
      have hstep := tougeStep_hairpin_noComplete p s o hi.1 hno
      exact ⟨hstep.1, hstep.2.trans hi.2⟩

theorem tougeAlt_chain (es : List (ℤ × Bool)) :
    ∀ c, TougeAlt c es →
      List.Chain' (fun a b : ℤ × Bool => b.1 = if a.2 then b.1 else -a.1) es := by
  induction es with
  | nil => intro c _; simp
  | cons e es ih =>
    intro c h
    obtain ⟨h1, htail⟩ := h
    cases es with
    | nil => simp
    | cons e2 es2 =>
      have htail2 := htail
      obtain ⟨h21, _⟩ := htail2
      refine List.chain'_cons.mpr ⟨?_, ih _ htail⟩
      by_cases hend : e.2 = true
      · rw [if_pos hend]
      · rw [if_neg hend]
        refine h21 e.1 ?_
        have hfalse : e.2 = false := by
          cases hb : e.2
          · rfl
          · exact absurd hb hend
        rw [hfalse]
        simp

/-- Claim C6: in both generators, consecutive hairpins turn in opposite
directions.  For the infinite corridor, the list of directions of the
hairpin phases entered along any run from the initial generator state forms
a chain in which each direction is the negation of the previous one (the
first is unconstrained).  For the descending pass, along any run, each
hairpin completion that does not close its sequence forces the next
completed hairpin to have the negated direction. -/
theorem c6_hairpin_alternation :
    (∀ os : List CorridorRand,
      List.Chain' (fun a b => b = -a) (corridorRun corridorInitState os)) ∧
    (∀ (p : ℝ × ℝ) (s : TougeGenState) (os : List TougeRand),
      List.Chain' (fun a b : ℤ × Bool => b.1 = if a.2 then b.1 else -a.1)
        (tougeEventsRun p s os)) := by
  constructor
  · intro os
    exact altFrom_chain (corridorRun corridorInitState os)
      corridorInitState.lastHairpinDirection
      (corridorRun_altFrom os corridorInitState (Or.inl rfl))
  · intro p s os
    exact tougeAlt_chain (tougeEventsRun p s os) none
      (tougeRun_alt os p s none (fun d hd => by cases hd))

/-- clampAngle lands in the configured cone. -/
theorem clampAngle_mem (a : ℝ) :
    TOUGE_ANGLE_CENTER - TOUGE_ANGLE_MAX_DEVIATION ≤ clampAngle a ∧
    clampAngle a ≤ TOUGE_ANGLE_CENTER + TOUGE_ANGLE_MAX_DEVIATION := by
  have hdev : (0:ℝ) ≤ TOUGE_ANGLE_MAX_DEVIATION := by
    unfold TOUGE_ANGLE_MAX_DEVIATION
    positivity
  constructor
  · exact le_max_left _ _
  · exact max_le (by linarith) (min_le_left _ _)

/-- On [π/6, 5π/6] the sine is at least 1/2. -/
theorem half_le_sin (x : ℝ) (h1 : Real.pi / 6 ≤ x) (h2 : x ≤ 5 * Real.pi / 6) :
    1 / 2 ≤ Real.sin x := by
  have hpi := Real.pi_pos
  have key : ∀ y : ℝ, Real.pi / 6 ≤ y → y ≤ Real.pi / 2 → 1 / 2 ≤ Real.sin y := by
    intro y hy1 hy2
    have hmono := Real.strictMonoOn_sin.monotoneOn
    have hmem1 : Real.pi / 6 ∈ Set.Icc (-(Real.pi / 2)) (Real.pi / 2) := by
      constructor <;> nlinarith
    have hmem2 : y ∈ Set.Icc (-(Real.pi / 2)) (Real.pi / 2) := by
      constructor <;> nlinarith
    have := hmono hmem1 hmem2 hy1
    rw [Real.sin_pi_div_six] at this
    exact this
  by_cases hhalf : x ≤ Real.pi / 2
  · exact key x h1 hhalf
  · have hx : Real.sin x = Real.sin (Real.pi - x) := (Real.sin_pi_sub x).symm
    rw [hx]
    refine key (Real.pi - x) (by nlinarith) (by nlinarith)

/-- On the touge cone [-5π/6, -π/6] the sine is at most -1/2: every
clamped heading moves the track upward by at least half a segment. -/
theorem sin_le_neg_half (t : ℝ)
    (h1 : TOUGE_ANGLE_CENTER - TOUGE_ANGLE_MAX_DEVIATION ≤ t)
    (h2 : t ≤ TOUGE_ANGLE_CENTER + TOUGE_ANGLE_MAX_DEVIATION) :
    Real.sin t ≤ -(1 / 2) := by
  have hpi := Real.pi_pos
  have hc : TOUGE_ANGLE_CENTER = -(Real.pi / 2) := rfl
  have hd : TOUGE_ANGLE_MAX_DEVIATION = Real.pi / 3 := rfl
  rw [hc, hd] at h1 h2
  have hneg : Real.sin t = -Real.sin (-t) := by
    rw [Real.sin_neg]
    ring
  rw [hneg]
  have hhalf : 1 / 2 ≤ Real.sin (-t) :=
    half_le_sin (-t) (by nlinarith) (by nlinarith)
  linarith

/-- Every touge step stores a clamped heading and emits the corresponding
point: currentAngle becomes clampAngle of some real, and the emitted y is
the previous y plus sin of that heading times the segment length. -/
theorem generateTougeSegment_shape (p : ℝ × ℝ) (s : TougeGenState) (o : TougeRand) :
    ∃ a : ℝ, (generateTougeSegment p s o).2.currentAngle = clampAngle a ∧
      (generateTougeSegment p s o).1.2 =
        p.2 + Real.sin (clampAngle a) * TOUGE_SEGMENT_LENGTH := by
  unfold generateTougeSegment
  split
  · exact ⟨_, rfl, rfl⟩
  · exact ⟨_, rfl, rfl⟩

/-- Claim C7: after every generateTougeSegment step the stored heading lies
in the cone [ANGLE_CENTER - ANGLE_MAX_DEVIATION, ANGLE_CENTER +
ANGLE_MAX_DEVIATION] (60 degrees around straight up), the emitted point
advances the progress direction by at least SEGMENT_LENGTH * sin(30°) = 25
(y strictly decreases by that much), and the initial state created by
createTougeGenState starts with its heading at the cone center. -/
theorem c7_touge_heading_cone :
    (∀ (p : ℝ × ℝ) (s : TougeGenState) (o : TougeRand),
      (TOUGE_ANGLE_CENTER - TOUGE_ANGLE_MAX_DEVIATION ≤
          (generateTougeSegment p s o).2.currentAngle ∧
        (generateTougeSegment p s o).2.currentAngle ≤
          TOUGE_ANGLE_CENTER + TOUGE_ANGLE_MAX_DEVIATION) ∧
      (generateTougeSegment p s o).1.2 ≤
        p.2 - TOUGE_SEGMENT_LENGTH * Real.sin (Real.pi / 6)) ∧
    (∀ r1 r2 : ℝ, (createTougeGenState r1 r2).currentAngle = TOUGE_ANGLE_CENTER) := by
  constructor
  · intro p s o
    obtain ⟨a, hang, hy⟩ := generateTougeSegment_shape p s o
    have hmem := clampAngle_mem a
    have hsin := sin_le_neg_half (clampAngle a) hmem.1 hmem.2
    refine ⟨⟨by rw [hang]; exact hmem.1, by rw [hang]; exact hmem.2⟩, ?_⟩
    rw [hy, Real.sin_pi_div_six]
    have hlen : TOUGE_SEGMENT_LENGTH = 50 := rfl
    rw [hlen]
    nlinarith
  · intro r1 r2
    rfl

/-
Track boundary oracle (GameEngine.tsx 1877-1928) and the urban road
test/push (part_002, GameEngine.tsx 1845-1872).  Track points, widths and
positions are exact rationals; Math.sqrt enters only through comparisons,
with the squared distance carried alongside.
-/

inductive TrackType
  | LOOP
  | INFINITE
  | URBAN
  | TOUGE
deriving DecidableEq

/-- distToSegment (GameEngine.tsx 1377-1385), squared: the squared distance
from p to the segment [v, w], including the degenerate-segment case and the
clamp of the projection parameter.  The source returns the square root of
this value. -/
def distToSegmentSq (p v w : ℚ × ℚ) : ℚ :=
  let l2 := (w.1 - v.1) ^ 2 + (w.2 - v.2) ^ 2
  if l2 = 0 then (p.1 - v.1) ^ 2 + (p.2 - v.2) ^ 2
  else
    let t0 := ((p.1 - v.1) * (w.1 - v.1) + (p.2 - v.2) * (w.2 - v.2)) / l2
    let t := max 0 (min 1 t0)
    let projX := v.1 + t * (w.1 - v.1)
    let projY := v.2 + t * (w.2 - v.2)
    (p.1 - projX) ^ 2 + (p.2 - projY) ^ 2

/-- distToSegment itself: Math.sqrt of the squared distance. -/
noncomputable def distToSegment (p v w : ℚ × ℚ) : ℝ :=
  Real.sqrt (distToSegmentSq p v w)

/-- The candidate segment start indices of the windowed scan: i ranges over
[-10, 40) around lastCheckpointIndex.  Loop tracks wrap through
(idx + 2*total) % total with the JS truncating remainder; when that value
is still negative (possible when lastIdx - 10 + 2*total < 0) the JS code
reads points[negative] = undefined and the NaN distance never updates the
minimum, which a skip models.  Other track kinds skip indices outside
[0, total-1); their extra skip of index total-1 is subsumed by that check. -/
def windowIdxs (ttype : TrackType) (total lastIdx : ℤ) : List ℤ :=
  (List.range 50).filterMap (fun j =>
    let idx := lastIdx + (j : ℤ) - 10
    if ttype = TrackType.LOOP then
      let w := (idx + total * 2).tmod total
      if w < 0 then none else some w
    else if idx < 0 ∨ total - 1 ≤ idx then none
    else some idx)

/-- Squared distance from the car to the window segment starting at idx:
endpoints points[idx] and points[(idx + 1) % total].  Indices delivered by
windowIdxs are always inside the list, so the out-of-range default of getD
is never consumed. -/
def segDistSq (pts : List (ℚ × ℚ)) (car : ℚ × ℚ) (idx : ℤ) : ℚ :=
  distToSegmentSq car (pts.getD idx.toNat (0, 0))
    (pts.getD ((idx + 1).tmod (pts.length : ℤ)).toNat (0, 0))

/-- One comparison of the running-minimum loops: d replaces the minimum
when d < minDist; none plays the initial Infinity, which any d beats. -/
def minStep (m : Option ℚ) (d : ℚ) : Option ℚ :=
  match m with
  | none => some d
  | some m0 => if d < m0 then some d else some m0

/-- The running minimum of the scan loops. -/
def minFold (l : List ℚ) : Option ℚ := l.foldl minStep none

/-- The effective minimum squared distance the tick compares against
(width/2)^2: the windowed minimum, or the exhaustive-scan minimum over all
consecutive segments when the window contributed nothing. -/
def effectiveMinDistSq (ttype : TrackType) (pts : List (ℚ × ℚ)) (lastIdx : ℤ)
    (car : ℚ × ℚ) : Option ℚ :=
  match minFold ((windowIdxs ttype (pts.length : ℤ) lastIdx).map (segDistSq pts car)) with
  | some m => some m
  | none => minFold ((List.range (pts.length - 1)).map (fun i =>
      distToSegmentSq car (pts.getD i (0, 0)) (pts.getD (i + 1) (0, 0))))

/-- The per-tick off-road flag (GameEngine.tsx 1877-1928): urban tracks
never set it; the other kinds compare the minimum segment distance with
width/2, and an empty scan (minDist still Infinity) counts as off-road. -/
noncomputable def isOffroadTick (ttype : TrackType) (pts : List (ℚ × ℚ))
    (width : ℚ) (lastIdx : ℤ) (car : ℚ × ℚ) : Prop :=
  if ttype = TrackType.URBAN then False
  else
    match effectiveMinDistSq ttype pts lastIdx car with
    | none => True
    | some m => ((width : ℝ) / 2) < Real.sqrt ((m : ℚ) : ℝ)

/-- isPositionOnRoad (part_002 lines 309-335): membership of the tile-local
position in any road rectangle of the tile containing the position; no
loaded tile means not on road. -/
def isPositionOnRoad (worldX worldY : ℚ) (tiles : ℤ × ℤ → Option CityTile) : Prop :=
  let gx := ⌊worldX / TILE_SIZE⌋
  let gy := ⌊worldY / TILE_SIZE⌋
  match tiles (gx, gy) with
  | none => False
  | some tile =>
    let localX := worldX - gx * TILE_SIZE
    let localY := worldY - gy * TILE_SIZE
    ∃ zone ∈ tile.roadZones,
      zone.x ≤ localX ∧ localX ≤ zone.x + zone.width ∧
      zone.y ≤ localY ∧ localY ≤ zone.y + zone.height

/-- findNearestRoadPosition (part_002 lines 338-375): without a loaded
tile, or with an empty road-rectangle list, the queried position itself is
returned; otherwise the nearest clamped point over all zones (the fold
carries Math.sqrt distances; none is the initial Infinity). -/
noncomputable def findNearestRoadPosition (worldX worldY : ℚ)
    (tiles : ℤ × ℤ → Option CityTile) : ℚ × ℚ :=
  let gx := ⌊worldX / TILE_SIZE⌋
  let gy := ⌊worldY / TILE_SIZE⌋
  match tiles (gx, gy) with
  | none => (worldX, worldY)
  | some tile =>
    if tile.roadZones = [] then (worldX, worldY)
    else
      let localX := worldX - gx * TILE_SIZE
      let localY := worldY - gy * TILE_SIZE
      (tile.roadZones.foldl (fun (acc : Option ℝ × (ℚ × ℚ)) zone =>
        let clampedX := max zone.x (min (zone.x + zone.width) localX)
        let clampedY := max zone.y (min (zone.y + zone.height) localY)
        let dist := Real.sqrt
          (((localX - clampedX) ^ 2 + (localY - clampedY) ^ 2 : ℚ) : ℝ)
        match acc.1 with
        | none => (some dist, (gx * TILE_SIZE + clampedX, gy * TILE_SIZE + clampedY))
        | some d0 =>
          if dist < d0 then
            (some dist, (gx * TILE_SIZE + clampedX, gy * TILE_SIZE + clampedY))
          else acc) (none, (worldX, worldY))).2

open Classical in
/-- The urban road-boundary collision block (GameEngine.tsx 1850-1872):
when the position is off every road rectangle, a push of strength 0.3
toward the nearest road point plus a 0.85 velocity damping is applied -
but only when the distance to that point exceeds 1. -/
noncomputable def urbanBoundaryStage (pos : ℚ × ℚ) (vel : ℝ × ℝ)
    (tiles : ℤ × ℤ → Option CityTile) : ℝ × ℝ :=
  if isPositionOnRoad pos.1 pos.2 tiles then vel
  else
    let nearestRoad := findNearestRoadPosition pos.1 pos.2 tiles
    let pushX := nearestRoad.1 - pos.1
    let pushY := nearestRoad.2 - pos.2
    let dist := Real.sqrt (((pushX ^ 2 + pushY ^ 2 : ℚ)) : ℝ)
    if 1 < dist then
      ((vel.1 + ((pushX : ℝ) / dist) * 0.3) * 0.85,
       (vel.2 + ((pushY : ℝ) / dist) * 0.3) * 0.85)
    else vel

/-- Claim C10: with no loaded tile at the vehicle's grid cell, or a tile
without road rectangles (the all-building EMPTY archetype),
findNearestRoadPosition returns the queried position itself, so the push
vector is zero, the distance guard fails, and the boundary stage leaves
the velocity untouched that tick. -/
theorem c10_no_push_without_roads (pos : ℚ × ℚ) (vel : ℝ × ℝ)
    (tiles : ℤ × ℤ → Option CityTile)
    (h : tiles (⌊pos.1 / TILE_SIZE⌋, ⌊pos.2 / TILE_SIZE⌋) = none ∨
      ∃ tile, tiles (⌊pos.1 / TILE_SIZE⌋, ⌊pos.2 / TILE_SIZE⌋) = some tile ∧
        tile.roadZones = []) :
    findNearestRoadPosition pos.1 pos.2 tiles = (pos.1, pos.2) ∧
    urbanBoundaryStage pos vel tiles = vel := by
  have hnear : findNearestRoadPosition pos.1 pos.2 tiles = (pos.1, pos.2) := by
    unfold findNearestRoadPosition
    dsimp only
    rcases h with h | ⟨tile, htile, hzones⟩
    · rw [h]
    · rw [htile]
      dsimp only
      rw [if_pos hzones]
  have hroad : ¬ isPositionOnRoad pos.1 pos.2 tiles := by
    unfold isPositionOnRoad
    dsimp only
    rcases h with h | ⟨tile, htile, hzones⟩
    · rw [h]
      exact fun hfalse => hfalse
    · rw [htile]
      dsimp only
      rw [hzones]
      rintro ⟨zone, hmem, _⟩
      cases hmem
  refine ⟨hnear, ?_⟩
  unfold urbanBoundaryStage
  rw [if_neg hroad]
  dsimp only
  rw [hnear]
  dsimp only
  have hzero : ((((pos.1 - pos.1) ^ 2 + (pos.2 - pos.2) ^ 2 : ℚ)) : ℝ) = 0 := by
    push_cast
    ring
  rw [hzero, Real.sqrt_zero]
  rw [if_neg (by norm_num : ¬(1:ℝ) < 0)]

/-- Witness for c10_no_push_without_roads: an empty tile map at position
(100, 200) with velocity (1, 2). -/
theorem c10_no_push_without_roads_witness :
    findNearestRoadPosition (100 : ℚ) (200 : ℚ) (fun _ => none) = (100, 200) ∧
    urbanBoundaryStage ((100 : ℚ), (200 : ℚ)) ((1 : ℝ), (2 : ℝ)) (fun _ => none) =
      (1, 2) :=
  c10_no_push_without_roads (100, 200) (1, 2) (fun _ => none) (Or.inl rfl)

/-- Folding the minimum from a seed yields a value no larger than the seed. -/
theorem foldl_minStep_seed_le (l : List ℚ) :
    ∀ a : ℚ, ∃ m, l.foldl minStep (some a) = some m ∧ m ≤ a := by
  induction l with
  | nil => intro a; exact ⟨a, rfl, le_refl a⟩
  | cons d tl ih =>
    intro a
    simp only [List.foldl_cons]
    by_cases hd : d < a
    · have hstep : minStep (some a) d = some d := by
        show (if d < a then some d else some a : Option ℚ) = some d
        rw [if_pos hd]
      rw [hstep]
      obtain ⟨m, hm, hle⟩ := ih d
      exact ⟨m, hm, le_trans hle hd.le⟩
    · have hstep : minStep (some a) d = some a := by
        show (if d < a then some d else some a : Option ℚ) = some a
        rw [if_neg hd]
      rw [hstep]
      exact ih a

/-- The folded minimum is defined and bounded by any member of the list. -/
theorem foldl_minStep_le (l : List ℚ) :
    ∀ (acc : Option ℚ) (x : ℚ), x ∈ l →
      ∃ m, l.foldl minStep acc = some m ∧ m ≤ x := by
  induction l with
  | nil => intro acc x hx; cases hx
  | cons d tl ih =>
    intro acc x hx
    simp only [List.foldl_cons]
    rcases List.mem_cons.mp hx with hx | hx
    · subst hx
      have hstep : ∃ v, minStep acc x = some v ∧ v ≤ x := by
        cases acc with
        | none => exact ⟨x, rfl, le_refl x⟩
        | some a0 =>
          by_cases hd : x < a0
          · refine ⟨x, ?_, le_refl x⟩
            show (if x < a0 then some x else some a0 : Option ℚ) = some x
            rw [if_pos hd]
          · refine ⟨a0, ?_, not_lt.mp hd⟩
            show (if x < a0 then some x else some a0 : Option ℚ) = some a0
            rw [if_neg hd]
      obtain ⟨v, hv, hvle⟩ := hstep
      rw [hv]
      obtain ⟨m, hm, hmle⟩ := foldl_minStep_seed_le tl v
      exact ⟨m, hm, le_trans hmle hvle⟩
    · exact ih (minStep acc d) x hx

/-- Claim C9 (amended): the off-road test is sound in three restricted
senses.  Urban tracks are never flagged off-road by the per-tick scan at
all.  A position strictly inside a road rectangle of its loaded tile
satisfies isPositionOnRoad (so the urban push stage does nothing).  For
the windowed scan of loop/corridor tracks, a position within half the
track width of a segment WHOSE INDEX LIES IN THE SEARCH WINDOW is never
flagged - the original claim, about the globally nearest segment, fails
when that segment lies outside the window (see the counterexample). -/
theorem c9_offroad_soundness_amended :
    (∀ (pts : List (ℚ × ℚ)) (width : ℚ) (lastIdx : ℤ) (car : ℚ × ℚ),
      ¬ isOffroadTick TrackType.URBAN pts width lastIdx car) ∧
    (∀ (worldX worldY : ℚ) (tiles : ℤ × ℤ → Option CityTile) (tile : CityTile)
        (zone : RoadZone),
      tiles (⌊worldX / TILE_SIZE⌋, ⌊worldY / TILE_SIZE⌋) = some tile →
      zone ∈ tile.roadZones →
      zone.x < worldX - ⌊worldX / TILE_SIZE⌋ * TILE_SIZE →
      worldX - ⌊worldX / TILE_SIZE⌋ * TILE_SIZE < zone.x + zone.width →
      zone.y < worldY - ⌊worldY / TILE_SIZE⌋ * TILE_SIZE →
      worldY - ⌊worldY / TILE_SIZE⌋ * TILE_SIZE < zone.y + zone.height →
      isPositionOnRoad worldX worldY tiles) ∧
    (∀ (ttype : TrackType) (pts : List (ℚ × ℚ)) (width : ℚ) (lastIdx : ℤ)
        (car : ℚ × ℚ) (idx : ℤ),
      0 ≤ width →
      idx ∈ windowIdxs ttype (pts.length : ℤ) lastIdx →
      segDistSq pts car idx ≤ (width / 2) ^ 2 →
      ¬ isOffroadTick ttype pts width lastIdx car) := by
  refine ⟨?_, ?_, ?_⟩
  · intro pts width lastIdx car
    unfold isOffroadTick
    rw [if_pos rfl]
    exact fun hfalse => hfalse
  · intro worldX worldY tiles tile zone htile hzone hx1 hx2 hy1 hy2
    unfold isPositionOnRoad
    dsimp only
    rw [htile]
    exact ⟨zone, hzone, hx1.le, hx2.le, hy1.le, hy2.le⟩
  · intro ttype pts width lastIdx car idx hw hmem hle
    unfold isOffroadTick
    by_cases hurb : ttype = TrackType.URBAN
    · rw [if_pos hurb]
      exact fun hfalse => hfalse
    · rw [if_neg hurb]
      have hmm : segDistSq pts car idx ∈
          (windowIdxs ttype (pts.length : ℤ) lastIdx).map (segDistSq pts car) :=
        List.mem_map_of_mem _ hmem
      obtain ⟨m, hm, hmle⟩ := foldl_minStep_le _ none _ hmm
      have heff : effectiveMinDistSq ttype pts lastIdx car = some m := by
        unfold effectiveMinDistSq minFold
        rw [hm]
      rw [heff]
      intro hlt
      have hmw : (m : ℝ) ≤ ((width : ℝ) / 2) ^ 2 := by
        have : (m : ℚ) ≤ (width / 2) ^ 2 := le_trans hmle hle
        have hcast := Rat.cast_le (K := ℝ).mpr this
        push_cast at hcast
        exact hcast
      have hsq : Real.sqrt ((m : ℚ) : ℝ) ≤ (width : ℝ) / 2 := by
        have h1 : Real.sqrt ((m : ℚ) : ℝ) ≤ Real.sqrt (((width : ℝ) / 2) ^ 2) :=
          Real.sqrt_le_sqrt hmw
        rw [Real.sqrt_sq (by positivity : (0:ℝ) ≤ (width : ℝ) / 2)] at h1
        exact h1
      exact absurd hlt (not_lt.mpr hsq)


/-- A 60-point square loop track (side 600, spacing 40): points 0-14 run
along the bottom edge, 15-29 up the right edge, 30-44 back along the top
edge, 45-59 down the left edge.  Author-placed loop tracks are arbitrary
point lists, and this one separates the scan window from the car. -/
def squareLoopPts : List (ℚ × ℚ) :=
  [(0, 0),
   (40, 0),
   (80, 0),
   (120, 0),
   (160, 0),
   (200, 0),
   (240, 0),
   (280, 0),
   (320, 0),
   (360, 0),
   (400, 0),
   (440, 0),
   (480, 0),
   (520, 0),
   (560, 0),
   (600, 0),
   (600, 40),
   (600, 80),
   (600, 120),
   (600, 160),
   (600, 200),
   (600, 240),
   (600, 280),
   (600, 320),
   (600, 360),
   (600, 400),
   (600, 440),
   (600, 480),
   (600, 520),
   (600, 560),
   (600, 600),
   (560, 600),
   (520, 600),
   (480, 600),
   (440, 600),
   (400, 600),
   (360, 600),
   (320, 600),
   (280, 600),
   (240, 600),
   (200, 600),
   (160, 600),
   (120, 600),
   (80, 600),
   (40, 600),
   (0, 600),
   (0, 560),
   (0, 520),
   (0, 480),
   (0, 440),
   (0, 400),
   (0, 360),
   (0, 320),
   (0, 280),
   (0, 240),
   (0, 200),
   (0, 160),
   (0, 120),
   (0, 80),
   (0, 40)]

/-- With lastCheckpointIndex 0 the loop scan window covers indices
50-59 and 0-39 of the square loop - segments 40-49 are not scanned. -/
theorem squareLoopWindow : windowIdxs TrackType.LOOP ((squareLoopPts.length : ℕ) : ℤ) 0 =
    [50, 51, 52, 53, 54, 55, 56, 57, 58, 59, 0, 1, 2, 3, 4, 5, 6, 7, 8, 9, 10,
     11, 12, 13, 14, 15, 16, 17, 18, 19, 20, 21, 22, 23, 24, 25, 26, 27, 28,
     29, 30, 31, 32, 33, 34, 35, 36, 37, 38, 39] := by
  decide

/-- The minimum squared distance over the scan window from the car at
(0, 600) - the top-left corner of the square - is 40000 (distance 200). -/
theorem squareLoopMinDistSq :
    minFold ((windowIdxs TrackType.LOOP ((squareLoopPts.length : ℕ) : ℤ) 0).map
      (segDistSq squareLoopPts (0, 600))) = some 40000 := by
  norm_num [squareLoopWindow, squareLoopPts, segDistSq, distToSegmentSq, minFold,
    minStep, List.foldl, List.map, List.getD, List.get?]

/-- Claim C9, counterexample: on the square loop with width 300 and
last-validated index 0, the car at (0, 600) sits exactly ON segment 45
(distance 0, within half the track width of the globally nearest segment),
yet the windowed scan - which never reaches segments 40-49 and finds
nothing nearer than 200 > 150 - flags the tick off-road.  The exhaustive
fallback does not run because the windowed scan did produce a minimum. -/
theorem c9_counterexample :
    squareLoopPts.length = 60 ∧
    distToSegmentSq (0, 600) (squareLoopPts.getD 45 (0, 0))
      (squareLoopPts.getD 46 (0, 0)) = 0 ∧
    isOffroadTick TrackType.LOOP squareLoopPts 300 0 (0, 600) := by
  refine ⟨rfl, ?_, ?_⟩
  · norm_num [squareLoopPts, distToSegmentSq, List.getD, List.get?]
  · unfold isOffroadTick
    rw [if_neg (by decide : ¬TrackType.LOOP = TrackType.URBAN)]
    have heff : effectiveMinDistSq TrackType.LOOP squareLoopPts 0 (0, 600) =
        some 40000 := by
      unfold effectiveMinDistSq
      rw [squareLoopMinDistSq]
    rw [heff]
    show ((300 : ℚ) : ℝ) / 2 < Real.sqrt ((40000 : ℚ) : ℝ)
    have h200 : ((40000 : ℚ) : ℝ) = (200 : ℝ) ^ 2 := by norm_num
    rw [h200, Real.sqrt_sq (by norm_num : (0:ℝ) ≤ 200)]
    norm_num

/-
Tuning record and the per-tick parameter resolution (GameEngine.tsx
1556-1593, types.ts 63-217).  Every numeric field is optional in the model
(older/partial records may omit any of them); an absent field is none.
The string metadata fields (preset name and so on) and _version take no
part in the physics and are omitted.
-/

structure TuningConfig where
  mass : Option ℚ := none
  inertiaMultiplier : Option ℚ := none
  centerOfMassOffset : Option ℚ := none
  weightDistribution : Option ℚ := none
  weightTransferAccel : Option ℚ := none
  weightTransferBrake : Option ℚ := none
  weightTransferLateral : Option ℚ := none
  angularDamping : Option ℚ := none
  angularVelocityMax : Option ℚ := none
  tractionPeak : Option ℚ := none
  tractionSliding : Option ℚ := none
  slipAngleOptimal : Option ℚ := none
  slipAnglePeak : Option ℚ := none
  tractionFalloff : Option ℚ := none
  tractionBiasFront : Option ℚ := none
  tractionLossMult : Option ℚ := none
  lowSpeedTractionLoss : Option ℚ := none
  driveBiasFront : Option ℚ := none
  driveInertia : Option ℚ := none
  engineBraking : Option ℚ := none
  brakeForce : Option ℚ := none
  brakeBiasFront : Option ℚ := none
  handbrakePower : Option ℚ := none
  handbrakeSlipAngle : Option ℚ := none
  brakeLockupRotation : Option ℚ := none
  steeringLock : Option ℚ := none
  steeringSpeedScale : Option ℚ := none
  steeringLinearity : Option ℚ := none
  counterSteerAssist : Option ℚ := none
  stabilityControl : Option ℚ := none
  tractionControl : Option ℚ := none
  absEnabled : Option Bool := none
  driftAssist : Option ℚ := none
  maxSpeed : Option ℚ := none
  acceleration : Option ℚ := none
  reversePower : Option ℚ := none
  brakePower : Option ℚ := none
  friction : Option ℚ := none
  drag : Option ℚ := none
  maxSteerAngle : Option ℚ := none
  steerSpeed : Option ℚ := none
  steerReturn : Option ℚ := none
  corneringStiffness : Option ℚ := none
  offRoadFriction : Option ℚ := none
  cameraSmoothness : Option ℚ := none
  carScale : Option ℚ := none

/-- DEFAULT_TUNING (types.ts 148-217). -/
def DEFAULT_TUNING : TuningConfig where
  mass := some 1100
  inertiaMultiplier := some 1.2
  centerOfMassOffset := some 0
  weightDistribution := some 0.5
  weightTransferAccel := some 0.4
  weightTransferBrake := some 0.5
  weightTransferLateral := some 0.3
  angularDamping := some 0.95
  angularVelocityMax := some 0.15
  tractionPeak := some 1.0
  tractionSliding := some 0.7
  slipAngleOptimal := some 10
  slipAnglePeak := some 25
  tractionFalloff := some 1.5
  tractionBiasFront := some 0.5
  tractionLossMult := some 1.0
  lowSpeedTractionLoss := some 0.0
  driveBiasFront := some 0.0
  driveInertia := some 0.9
  engineBraking := some 0.3
  brakeForce := some 1.2
  brakeBiasFront := some 0.55
  handbrakePower := some 0.8
  handbrakeSlipAngle := some 35
  brakeLockupRotation := some 0.5
  steeringLock := some 45
  steeringSpeedScale := some 0.4
  steeringLinearity := some 1.0
  counterSteerAssist := some 0.0
  stabilityControl := some 0.0
  tractionControl := some 0.0
  absEnabled := some false
  driftAssist := some 0.0
  maxSpeed := some 18
  acceleration := some 0.3
  reversePower := some 0.15
  brakePower := some 0.6
  friction := some 0.02
  drag := some 0.005
  maxSteerAngle := some 0.6
  steerSpeed := some 0.08
  steerReturn := some 0.1
  corneringStiffness := some 0.12
  offRoadFriction := some 0.15
  cameraSmoothness := some 0.1
  carScale := some 4

/-- The parameters the tick resolves at its top (GameEngine.tsx 1556-1593).
brakeForce falls back to `tuning.brakePower * 2` rather than to a literal,
so it stays optional: it is NaN (none) when both fields are absent. -/
structure ResolvedTuning where
  mass : ℚ
  inertiaMultiplier : ℚ
  weightDistribution : ℚ
  weightTransferAccel : ℚ
  weightTransferBrake : ℚ
  angularDamping : ℚ
  angularVelocityMax : ℚ
  tractionPeak : ℚ
  tractionSliding : ℚ
  slipAngleOptimal : ℚ
  slipAnglePeak : ℚ
  tractionFalloff : ℚ
  tractionBiasFront : ℚ
  tractionLossMult : ℚ
  lowSpeedTractionLoss : ℚ
  driveBiasFront : ℚ
  driveInertia : ℚ
  engineBraking : ℚ
  brakeForce : Option ℚ
  brakeBiasFront : ℚ
  handbrakePower : ℚ
  handbrakeSlipAngle : ℚ
  brakeLockupRotation : ℚ
  steeringLock : ℚ
  steeringSpeedScale : ℚ
  steeringLinearity : ℚ
  counterSteerAssist : ℚ
  stabilityControl : ℚ
  tractionControl : ℚ
  absEnabled : Bool
  driftAssist : ℚ

/-- The per-tick parameter resolution (GameEngine.tsx 1556-1593): `x || d`
for most fields, `!== undefined ? x : d` for driveBiasFront and
steeringSpeedScale, `absEnabled || false` for the ABS flag, and
`brakeForce || brakePower * 2` for the brake force. -/
def resolveTuning (t : TuningConfig) : ResolvedTuning where
  mass := jsOr t.mass 1100
  inertiaMultiplier := jsOr t.inertiaMultiplier 1.2
  weightDistribution := jsOr t.weightDistribution 0.5
  weightTransferAccel := jsOr t.weightTransferAccel 0.4
  weightTransferBrake := jsOr t.weightTransferBrake 0.5
  angularDamping := jsOr t.angularDamping 0.95
  angularVelocityMax := jsOr t.angularVelocityMax 0.15
  tractionPeak := jsOr t.tractionPeak 1.0
  tractionSliding := jsOr t.tractionSliding 0.7
  slipAngleOptimal := jsOr t.slipAngleOptimal 10
  slipAnglePeak := jsOr t.slipAnglePeak 25
  tractionFalloff := jsOr t.tractionFalloff 1.5
  tractionBiasFront := jsOr t.tractionBiasFront 0.5
  tractionLossMult := jsOr t.tractionLossMult 1.0
  lowSpeedTractionLoss := jsOr t.lowSpeedTractionLoss 0.0
  driveBiasFront := t.driveBiasFront.getD 0.0
  driveInertia := jsOr t.driveInertia 0.9
  engineBraking := jsOr t.engineBraking 0.3
  brakeForce := jsOrOpt t.brakeForce (jsMulOpt t.brakePower (some 2))
  brakeBiasFront := jsOr t.brakeBiasFront 0.55
  handbrakePower := jsOr t.handbrakePower 0.8
  handbrakeSlipAngle := jsOr t.handbrakeSlipAngle 35
  brakeLockupRotation := jsOr t.brakeLockupRotation 0.5
  steeringLock := jsOr t.steeringLock 45
  steeringSpeedScale := t.steeringSpeedScale.getD 0.4
  steeringLinearity := jsOr t.steeringLinearity 1.0
  counterSteerAssist := jsOr t.counterSteerAssist 0.0
  stabilityControl := jsOr t.stabilityControl 0.0
  tractionControl := jsOr t.tractionControl 0.0
  absEnabled := t.absEnabled.getD false
  driftAssist := jsOr t.driftAssist 0.0

/-- The end-to-end record of the claim: only maxSpeed is supplied. -/
def onlyMaxSpeedTuning : TuningConfig := { maxSpeed := some 10 }

/-- The engine-power computation of the throttle branch (GameEngine.tsx
1719-1735): raw tuning.acceleration times ACCEL_SCALE = 400 times the
stability intervention, attenuated by traction control when the average
grip is under the wheelspin threshold 0.3.  An absent acceleration field
makes the whole product NaN. -/
def totalEnginePower (acceleration : Option ℚ)
    (stabilityIntervention tractionControl frontGrip rearGrip : ℚ) : Option ℚ :=
  let base := jsMulOpt (jsMulOpt acceleration (some 400)) (some stabilityIntervention)
  if 0 < tractionControl then
    let avgGrip := (frontGrip + rearGrip) / 2
    if avgGrip < 0.3 then
      jsMulOpt base (some (1 - (0.3 - avgGrip) * tractionControl))
    else base
  else base

/-- Application of one axle drive force (GameEngine.tsx 1755-1787): the
velocity changes only when Math.abs(force) > 0, which is false for the
NaN force arising from an absent acceleration field. -/
def applyAxleDriveForce (vel : ℝ × ℝ) (cosA sinA : ℝ) (force : Option ℚ)
    (mass : ℚ) : ℝ × ℝ :=
  match force with
  | none => vel
  | some f =>
    if 0 < |f| then
      (vel.1 + cosA * ((f / mass : ℚ) : ℝ), vel.2 + sinA * ((f / mass : ℚ) : ℝ))
    else vel

/-- Claim C8, counterexample: resolving a record that supplies only
maxSpeed gives brakeForce = none (NaN from undefined brakePower * 2), not
the documented default 1.2 recorded in DEFAULT_TUNING. -/
theorem c8_counterexample :
    (resolveTuning onlyMaxSpeedTuning).brakeForce = none ∧
    DEFAULT_TUNING.brakeForce = some 1.2 ∧
    (resolveTuning onlyMaxSpeedTuning).brakeForce ≠ DEFAULT_TUNING.brakeForce := by
  refine ⟨rfl, rfl, ?_⟩
  intro h
  rw [show (resolveTuning onlyMaxSpeedTuning).brakeForce = none from rfl] at h
  rw [show DEFAULT_TUNING.brakeForce = some 1.2 from rfl] at h
  cases h

/-- Claim C8 (amended): resolving the only-maxSpeed record yields exactly
the resolved parameters of the full DEFAULT_TUNING record except
brakeForce, which becomes NaN (brakePower * 2 with brakePower absent)
instead of the documented 1.2; the legacy acceleration field has no baked
default either, so the engine power of the throttle branch is NaN and the
drive-force guard Math.abs(force) > 0 fails - the velocity is never
changed, and the vehicle never accelerates toward maxSpeed 10 at all. -/
theorem c8_tuning_defaults_amended :
    resolveTuning onlyMaxSpeedTuning =
      { resolveTuning DEFAULT_TUNING with brakeForce := none } ∧
    (∀ stab tc fg rg : ℚ,
      totalEnginePower onlyMaxSpeedTuning.acceleration stab tc fg rg = none) ∧
    (∀ (vel : ℝ × ℝ) (cosA sinA : ℝ) (driveBias mass : ℚ) (stab tc fg rg : ℚ),
      applyAxleDriveForce vel cosA sinA
        (jsMulOpt (totalEnginePower onlyMaxSpeedTuning.acceleration stab tc fg rg)
          (some driveBias)) mass = vel) := by
  have hnone : ∀ stab tc fg rg : ℚ,
      totalEnginePower onlyMaxSpeedTuning.acceleration stab tc fg rg = none := by
    intro stab tc fg rg
    show totalEnginePower none stab tc fg rg = none
    unfold totalEnginePower
    dsimp only
    split_ifs <;> rfl
  refine ⟨?_, hnone, ?_⟩
  · show resolveTuning onlyMaxSpeedTuning =
      { resolveTuning DEFAULT_TUNING with brakeForce := none }
    simp only [resolveTuning, onlyMaxSpeedTuning, DEFAULT_TUNING, jsOr, jsOrOpt,
      jsMulOpt, Option.getD]
    norm_num
  · intro vel cosA sinA driveBias mass stab tc fg rg
    rw [hnone stab tc fg rg]
    rfl
